import Mathlib

/-!
Verification development for the mystical-runic template engine.

The Rust sources are embedded shallowly:

* Rust `String`/`&str` values are modelled as `Str := List Char`.  The Rust
  code addresses strings by UTF-8 byte index, but every index it computes is
  either the result of `find` for an ASCII pattern or such a result shifted by
  the length of an ASCII literal, so byte positions and character positions
  describe the same decompositions of the string; the embedding therefore uses
  character indices.  The two places where genuine byte counts are observable
  (`validate_template_path`'s `name.len()` and the byte slicing in the
  `truncate` filter) are modelled explicitly with a UTF-8 byte-size function.
* `HashMap` values are modelled as association lists with first-match lookup
  (`HashMap` iteration order is never relied on by a claim; whenever the
  embedded code iterates a map it is stated for engines where that map is
  empty or a hypothesis fixes the relevant lookups).
* The `while … find …` rewrite loops of the engine do not structurally
  terminate, so every loop and every mutually recursive render function takes
  an explicit `fuel : Nat`; the value `none` of the result monad `M` means
  "fuel exhausted".  A result `some r` at any fuel agrees with the unbounded
  loop of the source, so theorems are stated at explicit sufficient fuels.
* File-system access (`fs::read_to_string`, `Path::canonicalize`,
  `Path::starts_with` on canonical paths) is modelled by an abstract `Fs`
  record supplied to the functions that touch the disk.
-/

namespace MysticalRunic

/-- Rust strings, by character. -/
abbrev Str := List Char

/-- `haystack.find(needle)` restricted to "does `needle` occur at the front".
Mirrors `str::starts_with` for string patterns. -/
def strStarts (hay pat : Str) : Bool :=
  match pat, hay with
  | [], _ => true
  | _ :: _, [] => false
  | p :: ps, h :: hs => p == h && strStarts hs ps

/-- `haystack.find(needle)`: index of the first occurrence. -/
def strFind? (hay pat : Str) : Option Nat :=
  match hay with
  | [] => if pat.isEmpty then some 0 else none
  | _ :: rest =>
    if strStarts hay pat then some 0
    else (strFind? rest pat).map (· + 1)

/-- `haystack.rfind(needle)` for single characters (`rfind(')')`). -/
def strRevFindChar? (hay : Str) (c : Char) : Option Nat :=
  match hay with
  | [] => none
  | h :: rest =>
    match strRevFindChar? rest c with
    | some i => some (i + 1)
    | none => if h == c then some 0 else none

/-- `s.contains(pat)` for string patterns. -/
def strContains (hay pat : Str) : Bool :=
  (strFind? hay pat).isSome

/-- `s.contains(c)` for a single character. -/
def strContainsChar (s : Str) (c : Char) : Bool :=
  s.any (· == c)

/-- `s[i..j]` (chunk between two indices). -/
def strSlice (s : Str) (i j : Nat) : Str :=
  (s.take j).drop i

/-- `String::replace_range(i..j, r)`. -/
def replaceRange (s : Str) (i j : Nat) (r : Str) : Str :=
  s.take i ++ r ++ s.drop j

/-- `str::trim` (both ends, whitespace). -/
def strTrim (s : Str) : Str :=
  (s.dropWhile Char.isWhitespace).reverse.dropWhile Char.isWhitespace |>.reverse

/-- `str::trim_matches(c)`: strip every leading and trailing `c`. -/
def trimMatchesChar (s : Str) (c : Char) : Str :=
  (s.dropWhile (· == c)).reverse.dropWhile (· == c) |>.reverse

/-- `str::split(c)` on a single character separator. -/
def splitChar (s : Str) (c : Char) : List Str :=
  match s with
  | [] => [[]]
  | h :: rest =>
    let tail := splitChar rest c
    if h == c then [] :: tail
    else match tail with
      | [] => [[h]]
      | t :: ts => (h :: t) :: ts

/-- `str::split(sep)` on a string separator (used for `" in "`), with fuel:
repeated `find`-and-cut.  For a non-empty separator every step strips at
least one character, so `s.length + 1` fuel is always sufficient. -/
def splitSubAux (fuel : Nat) (s sep : Str) : List Str :=
  match fuel with
  | 0 => [s]
  | f + 1 =>
    match strFind? s sep with
    | none => [s]
    | some i => s.take i :: splitSubAux f (s.drop (i + sep.length)) sep

def splitSub (s sep : Str) : List Str :=
  splitSubAux (s.length + 1) s sep

/-- `str::split_whitespace`. -/
def splitWs (s : Str) : List Str :=
  match s with
  | [] => []
  | h :: rest =>
    let tail := splitWs rest
    if h.isWhitespace then tail
    else
      match rest with
      | [] => [[h]]
      | r :: _ =>
        if r.isWhitespace then [h] :: tail
        else
          match tail with
          | [] => [[h]]
          | w :: ws => (h :: w) :: ws

/-- `Vec::join(sep)`. -/
def listJoin (xs : List Str) (sep : Str) : Str :=
  match xs with
  | [] => []
  | [x] => x
  | x :: rest => x ++ sep ++ listJoin rest sep

/-- Replace every occurrence of a character (Rust `str::replace` with a
`char` pattern); the replacement text is not rescanned. -/
def replaceChar (s : Str) (c : Char) (rep : Str) : Str :=
  s.foldr (fun x acc => if x == c then rep ++ acc else x :: acc) []

/-- Replace every occurrence of a string pattern (Rust `str::replace`),
non-overlapping, left to right, replacement not rescanned. -/
def replaceSubAux (fuel : Nat) (s pat rep : Str) : Str :=
  match fuel with
  | 0 => s
  | f + 1 =>
    match strFind? s pat with
    | none => s
    | some i => s.take i ++ rep ++ replaceSubAux f (s.drop (i + pat.length)) pat rep

def replaceSub (s pat rep : Str) : Str :=
  replaceSubAux (s.length + 1) s pat rep

/-- UTF-8 encoded size of one character. -/
def utf8Size (c : Char) : Nat :=
  if c.val < 0x80 then 1 else if c.val < 0x800 then 2
  else if c.val < 0x10000 then 3 else 4

/-- `str::len()`: UTF-8 byte length. -/
def byteLen (s : Str) : Nat :=
  (s.map utf8Size).sum

/-- `&s[..n]` by byte index: `some` prefix when `n` is a character boundary,
`none` when the slice would split a character or overrun (a Rust panic). -/
def byteTake? (s : Str) (n : Nat) : Option Str :=
  match s, n with
  | _, 0 => some []
  | [], _ + 1 => none
  | c :: rest, m + 1 =>
    if utf8Size c ≤ m + 1 then (byteTake? rest (m + 1 - utf8Size c)).map (c :: ·)
    else none

def digitsToNat? (s : Str) : Option Nat :=
  if s.isEmpty then none
  else if s.all Char.isDigit then
    some (s.foldl (fun acc c => acc * 10 + (c.toNat - '0'.toNat)) 0)
  else none

/-- `str::parse::<usize>()` (i64/usize overflow is not modelled). -/
def parseNat? (s : Str) : Option Nat :=
  match s with
  | '+' :: rest => digitsToNat? rest
  | _ => digitsToNat? s

/-- `str::parse::<i64>()` (overflow not modelled). -/
def parseInt? (s : Str) : Option Int :=
  match s with
  | '-' :: rest => (digitsToNat? rest).map (fun n => -(n : Int))
  | '+' :: rest => (digitsToNat? rest).map (fun n => (n : Int))
  | _ => (digitsToNat? s).map (fun n => (n : Int))

def natToStr (n : Nat) : Str :=
  Nat.toDigits 10 n

/-- `i64` Display. -/
def intToStr (i : Int) : Str :=
  if i < 0 then '-' :: natToStr i.natAbs else natToStr i.natAbs

def boolToStr (b : Bool) : Str :=
  if b then "true".data else "false".data

/-! ## Data model: values, contexts, errors (src/src/value.rs, context.rs,
error.rs) -/

/-- `TemplateValue` (src/src/value.rs).  `Object` is modelled as an
association list with first-match lookup; `HashMap` iteration order is
unspecified in the source and no claim depends on it. -/
inductive TemplateValue where
  | str (s : Str)
  | bool (b : Bool)
  | num (n : Int)
  | arr (items : List TemplateValue)
  | obj (fields : List (Str × TemplateValue))

/-- The error kinds of `TemplateError` (src/src/error.rs) that the embedded
core can produce.  Message strings follow the source format strings; where a
message interpolates an `io::Error` the io text is omitted. -/
inductive TErr where
  | template (msg : Str)
  | parse (msg : Str)
  | runtime (msg : Str)
  | render (msg : Str)
  | security (msg : Str)
deriving DecidableEq

/-- Result monad of the embedding: `none` means the fuel ran out (the source
loop would still be running), `some` is the program's own `TemplateResult`. -/
def M (α : Type) : Type := Option (Except TErr α)

instance : Monad M where
  pure a := some (Except.ok a)
  bind x f :=
    match x with
    | none => none
    | some (Except.error e) => some (Except.error e)
    | some (Except.ok a) => f a

deriving instance DecidableEq for Except

instance [DecidableEq α] : DecidableEq (M α) := fun a b =>
  (inferInstanceAs (DecidableEq (Option (Except TErr α)))) a b

def mThrow (e : TErr) : M α := some (Except.error e)

def mDiv : M α := none

/-- Project the value component out of a result (used to state theorems that
do not care about the returned engine state). -/
def mFst (x : M (α × β)) : M α :=
  match x with
  | none => none
  | some (Except.error e) => some (Except.error e)
  | some (Except.ok (a, _)) => some (Except.ok a)

/-- `TemplateContext` (src/src/context.rs): `variables` as an association
list; `ctxSet` mirrors `HashMap::insert` (last write wins on lookup). -/
abbrev Ctx := List (Str × TemplateValue)

def ctxGet? (ctx : Ctx) (k : Str) : Option TemplateValue :=
  (ctx.find? (fun p => p.1 == k)).map (·.2)

def ctxSet (ctx : Ctx) (k : Str) (v : TemplateValue) : Ctx :=
  (k, v) :: ctx.filter (fun p => !(p.1 == k))

/-- `TemplateContext::get_string` (src/src/context.rs): stringification of
the §3 kind, arrays and objects giving the empty string. -/
def ctxGetString? (ctx : Ctx) (k : Str) : Option Str :=
  (ctxGet? ctx k).map fun v =>
    match v with
    | .str s => s
    | .bool b => boolToStr b
    | .num n => intToStr n
    | _ => []

/-! ## Value traversal, truthiness, conditions (src/src/engine.rs) -/

mutual

/-- `TemplateEngine::template_value_to_string` (engine.rs): stringification
used for helper results; object iteration follows the association list. -/
def templateValueToString : TemplateValue → Str
  | .str s => s
  | .num n => intToStr n
  | .bool b => boolToStr b
  | .arr items => '[' :: listJoin (tvListStrings items) ", ".data ++ [']']
  | .obj fields => '\x7b' :: listJoin (tvFieldStrings fields) ", ".data ++ ['\x7d']

def tvListStrings : List TemplateValue → List Str
  | [] => []
  | v :: rest => templateValueToString v :: tvListStrings rest

def tvFieldStrings : List (Str × TemplateValue) → List Str
  | [] => []
  | (k, v) :: rest => (k ++ ": ".data ++ templateValueToString v) :: tvFieldStrings rest

end

/-- `TemplateEngine::traverse_nested_value` (engine.rs): walk the remaining
dotted-path parts and stringify; arrays/objects hit at the end give "". -/
def traverseNestedValue (v : TemplateValue) (parts : List Str) : Str :=
  match parts with
  | [] =>
    match v with
    | .str s => s
    | .bool b => boolToStr b
    | .num n => intToStr n
    | .arr _ => []
    | .obj _ => []
  | p :: rest =>
    match v with
    | .obj fields =>
      match (fields.find? (fun q => q.1 == p)).map (·.2) with
      | some next => traverseNestedValue next rest
      | none => []
    | .arr items =>
      match parseNat? p with
      | some i =>
        match items.get? i with
        | some el => traverseNestedValue el rest
        | none => []
      | none => []
    | _ => []

/-- `TemplateEngine::get_nested_value` (engine.rs). -/
def getNestedValue (v : TemplateValue) (parts : List Str) : TemplateValue :=
  match parts with
  | [] => v
  | p :: rest =>
    match v with
    | .obj fields =>
      match (fields.find? (fun q => q.1 == p)).map (·.2) with
      | some next => getNestedValue next rest
      | none => .str []
    | .arr items =>
      match parseNat? p with
      | some i =>
        match items.get? i with
        | some el => getNestedValue el rest
        | none => .str []
      | none => .str []
    | _ => .str []

/-- `TemplateEngine::is_truthy` (engine.rs). -/
def isTruthy : TemplateValue → Bool
  | .bool b => b
  | .str s => !s.isEmpty
  | .num n => n != 0
  | .arr a => !a.isEmpty
  | .obj o => !o.isEmpty

/-- `TemplateEngine::evaluate_nested_condition` (engine.rs). -/
def evaluateNestedCondition (v : TemplateValue) (parts : List Str) : Bool :=
  match parts with
  | [] => isTruthy v
  | p :: rest =>
    match v with
    | .obj fields =>
      match (fields.find? (fun q => q.1 == p)).map (·.2) with
      | some next => evaluateNestedCondition next rest
      | none => false
    | .arr items =>
      match parseNat? p with
      | some i =>
        match items.get? i with
        | some el => evaluateNestedCondition el rest
        | none => false
      | none => false
    | _ => false

/-- `TemplateEngine::value_to_string` (engine.rs, comparison variant). -/
def valueToString : TemplateValue → Str
  | .str s => s
  | .num n => intToStr n
  | .bool b => boolToStr b
  | .arr _ => "[Array]".data
  | .obj _ => "[Object]".data

/-- Lexicographic `<` on strings (Rust `str` ordering; UTF-8 byte order
coincides with scalar-value order). -/
def strLt : Str → Str → Bool
  | [], [] => false
  | [], _ :: _ => true
  | _ :: _, [] => false
  | a :: as', b :: bs =>
    if a < b then true else if b < a then false else strLt as' bs

/-- `TemplateEngine::values_equal` (engine.rs). -/
def valuesEqual (l r : TemplateValue) : Bool :=
  match l, r with
  | .str a, .str b => a == b
  | .num a, .num b => a == b
  | .bool a, .bool b => a == b
  | .arr a, .arr b => a.length == b.length
  | .obj a, .obj b => a.length == b.length
  | _, _ => valueToString l == valueToString r

/-- `TemplateEngine::compare_values` (engine.rs): -1 / 0 / 1. -/
def compareValues (l r : TemplateValue) : Int :=
  match l, r with
  | .num a, .num b => if a < b then -1 else if b < a then 1 else 0
  | .str a, .str b => if strLt a b then -1 else if strLt b a then 1 else 0
  | _, _ =>
    let a := valueToString l
    let b := valueToString r
    if strLt a b then -1 else if strLt b a then 1 else 0

/-- `TemplateEngine::get_condition_value` (engine.rs).  The `length ≥ 2`
guard keeps the quoted-literal slice well defined; the source would panic on
the one-character strings `"` / `'`, an edge no claim touches. -/
def getConditionValue (expr : Str) (ctx : Ctx) : TemplateValue :=
  let expr := strTrim expr
  if (expr.head? == some '"' && expr.getLast? == some '"' && expr.length ≥ 2) ||
     (expr.head? == some '\'' && expr.getLast? == some '\'' && expr.length ≥ 2) then
    .str (strSlice expr 1 (expr.length - 1))
  else
    match parseInt? expr with
    | some n => .num n
    | none =>
      if expr == "true".data then .bool true
      else if expr == "false".data then .bool false
      else if strContainsChar expr '.' then
        match splitChar expr '.' with
        | [] => .str []
        | root :: rest =>
          match ctxGet? ctx root with
          | some v => getNestedValue v rest
          | none => .str []
      else
        match ctxGet? ctx expr with
        | some v => v
        | none => .str []

/-- `TemplateEngine::evaluate_comparison` (engine.rs): try the operators in
the source's order (longest first) on the first position found. -/
def evaluateComparison (cond : Str) (ctx : Ctx) : Option Bool :=
  let tryOp : Str → (TemplateValue → TemplateValue → Bool) → Option Bool :=
    fun op test =>
      match strFind? cond op with
      | some i =>
        let l := getConditionValue (strTrim (cond.take i)) ctx
        let r := getConditionValue (strTrim (cond.drop (i + op.length))) ctx
        some (test l r)
      | none => none
  match tryOp "==".data (fun l r => valuesEqual l r) with
  | some b => some b
  | none =>
  match tryOp "!=".data (fun l r => !valuesEqual l r) with
  | some b => some b
  | none =>
  match tryOp "<=".data (fun l r => compareValues l r ≤ 0) with
  | some b => some b
  | none =>
  match tryOp ">=".data (fun l r => compareValues l r ≥ 0) with
  | some b => some b
  | none =>
  match tryOp "<".data (fun l r => compareValues l r < 0) with
  | some b => some b
  | none =>
  match tryOp ">".data (fun l r => compareValues l r > 0) with
  | some b => some b
  | none => none

/-- `TemplateEngine::evaluate_condition` (engine.rs). -/
def evaluateCondition (cond : Str) (ctx : Ctx) : Bool :=
  let cond := strTrim cond
  match evaluateComparison cond ctx with
  | some b => b
  | none =>
    if strContainsChar cond '.' then
      match splitChar cond '.' with
      | [] => false
      | root :: rest =>
        match ctxGet? ctx root with
        | some v => evaluateNestedCondition v rest
        | none => false
    else
      match ctxGet? ctx cond with
      | some v => isTruthy v
      | none => false

/-! ## HTML escaping and filters -/

/-- HTML escaping, the canonical five-entity mapping applied as five
sequential `str::replace` passes.  This is `BytecodeExecutor::escape_html`
(src/src/bytecode.rs); the engine's `crate::utils::html_escape`
(`mod utils` is declared in lib.rs but src/utils.rs is not among the provided
sources) is Modelled from the spec: the same canonical mapping
`&→&amp; <→&lt; >→&gt; "→&quot; '→&#x27;`. -/
def escapeHtml (text : Str) : Str :=
  replaceChar (replaceChar (replaceChar (replaceChar (replaceChar
    text '&' "&amp;".data) '<' "&lt;".data) '>' "&gt;".data)
    '"' "&quot;".data) '\'' "&#x27;".data

/-- Custom filter functions (`FilterFunction`, engine.rs). -/
abbrev FilterFn := Str → List Str → Except TErr Str

/-- Helper functions (`HelperFunction`, engine.rs). -/
abbrev HelperFn := List TemplateValue → Except TErr TemplateValue

/-- The `**…**` loop of the `markdown` filter (engine.rs): repeatedly find a
paired `**…**`, wrap in `<strong>`.  Each round removes four `*`, so
`s.length + 1` fuel always suffices. -/
def markdownStrongAux (fuel : Nat) (s : Str) : Str :=
  match fuel with
  | 0 => s
  | f + 1 =>
    match strFind? s "**".data with
    | none => s
    | some start =>
      match strFind? (s.drop (start + 2)) "**".data with
      | none => s
      | some e =>
        markdownStrongAux f
          (replaceRange s start (start + 2 + e + 2)
            ("<strong>".data ++ strSlice s (start + 2) (start + 2 + e) ++
              "</strong>".data))

/-- `TemplateEngine::apply_single_filter` (engine.rs).  The result `none` is
a Rust panic (the `truncate` branch slices the accumulator by byte index).
The floating-point branches of `currency`, `divide` and `round` are not
modelled bit-exactly (no claim depends on them): where the source would
perform `f64` arithmetic the embedding falls through to the
"input unchanged" result, and `currency` models only the exact `i64` path.
Case mapping is per-character (`Char.toUpper`/`toLower`), matching the
source on every character whose Unicode case mapping is one-to-one. -/
def applySingleFilter (customs : List (Str × FilterFn)) (value : Str)
    (filterExpr : Str) : Option Str :=
  let filterParts := splitChar filterExpr ':'
  let filterName := filterParts.headD []
  let args : List Str :=
    if filterParts.length > 1 then
      (filterParts.drop 1).map fun a => trimMatchesChar (trimMatchesChar a '"') '\''
    else []
  if filterName == "upper".data then some (value.map Char.toUpper)
  else if filterName == "lower".data then some (value.map Char.toLower)
  else if filterName == "capitalize".data then
    if value.isEmpty then some []
    else some (listJoin ((splitWs value).map fun w =>
      match w with
      | [] => []
      | c :: rest => c.toUpper :: rest) " ".data)
  else if filterName == "truncate".data then
    match args.head? with
    | some limitStr =>
      match parseNat? limitStr with
      | some limit =>
        if byteLen value > limit then
          (byteTake? value (min limit (byteLen value))).map (· ++ "...".data)
        else some value
      | none => some value
    | none => some value
  else if filterName == "currency".data then
    match parseInt? value with
    | some num =>
      if num ≥ 100 then
        some ('$' :: intToStr (num / 100) ++ '.' ::
          (if num % 100 < 10 then '0' :: intToStr (num % 100) else intToStr (num % 100)))
      else some ('$' :: intToStr num ++ ".00".data)
    | none => some ('$' :: value)
  else if filterName == "date".data then some value
  else if filterName == "strip".data then some (strTrim value)
  else if filterName == "add".data then
    match args.head? with
    | some addendStr =>
      match parseInt? value, parseInt? addendStr with
      | some num, some addend => some (intToStr (num + addend))
      | _, _ => some value
    | none => some value
  else if filterName == "multiply".data then
    match args.head? with
    | some factorStr =>
      match parseInt? value, parseInt? factorStr with
      | some num, some factor => some (intToStr (num * factor))
      | _, _ => some value
    | none => some value
  else if filterName == "markdown".data then
    some ("<p>".data ++ markdownStrongAux (value.length + 1) value ++ "</p>".data)
  else if filterName == "highlight".data then
    match args.head? with
    | some lang =>
      some ("<pre><code class=\"".data ++ lang ++ "\">".data ++ value ++
        "</code></pre>".data)
    | none => some ("<pre><code>".data ++ value ++ "</code></pre>".data)
  else if filterName == "slugify".data then
    some (listJoin (((splitChar ((value.map Char.toLower).map fun c =>
      if c.isAlphanum then c else '-') '-').filter fun s => !s.isEmpty)) "-".data)
  else if filterName == "divide".data then some value
  else if filterName == "percentage".data then some (value ++ ['%'])
  else if filterName == "round".data then some value
  else
    match (customs.find? (fun p => p.1 == filterName)).map (·.2) with
    | some custom =>
      match custom value args with
      | Except.ok result => some result
      | Except.error _ => some value
    | none => some value

/-- `TemplateEngine::apply_filters` (engine.rs): resolve the head variable,
then fold the filters left to right. -/
def applyFilters (customs : List (Str × FilterFn)) (expression : Str)
    (ctx : Ctx) : Option Str :=
  let parts := splitChar expression '|'
  match parts with
  | [] => some []
  | varPart :: filters =>
    let varName := strTrim varPart
    let value :=
      if strContainsChar varName '.' then
        match splitChar varName '.' with
        | [] => []
        | root :: rest =>
          match ctxGet? ctx root with
          | some v => traverseNestedValue v rest
          | none => []
      else (ctxGetString? ctx varName).getD []
    filters.foldlM (fun acc fexpr => applySingleFilter customs acc (strTrim fexpr))
      value

/-- `TemplateEngine::uses_html_producing_filter` (engine.rs). -/
def usesHtmlProducingFilter (varExpression : Str) : Bool :=
  match splitChar varExpression '|' with
  | [] => false
  | [_] => false
  | _ :: filters =>
    filters.any fun fexpr =>
      let fname := strTrim ((splitChar fexpr ':').headD [])
      fname == "markdown".data || fname == "highlight".data

/-- `TemplateEngine::get_variable_value` (engine.rs). -/
def getVariableValue (customs : List (Str × FilterFn)) (varName : Str)
    (ctx : Ctx) : Option Str :=
  if strContainsChar varName '|' then applyFilters customs varName ctx
  else if strContainsChar varName '.' then
    match splitChar varName '.' with
    | [] => some []
    | root :: rest =>
      match ctxGet? ctx root with
      | some v => some (traverseNestedValue v rest)
      | none => some []
  else some ((ctxGetString? ctx varName).getD [])

/-! ## Bytecode compiler and executor (src/src/bytecode.rs) -/

/-- `BytecodeInstruction` (bytecode.rs). -/
inductive Instr where
  | outputLiteral (text : Str)
  | outputVariable (path : List Str)
  | outputRaw (path : List Str)
  | jumpIfFalsy (path : List Str) (target : Nat)
  | jump (target : Nat)
  | startLoop (itemVar : Str) (arrayPath : List Str)
  | endLoop (target : Nat)
  | nop
deriving DecidableEq

/-- `CompiledTemplate` (bytecode.rs): name and instruction list (the
`compilation_time` wall-clock field is not modelled). -/
abbrev Compiled := Str × List Instr

/-- `TemplateCompiler::parse_variable_path` (bytecode.rs). -/
def parseVariablePath (varName : Str) : List Str :=
  splitChar varName '.'

/-- One directive of `TemplateCompiler::compile` (bytecode.rs): which
instructions a directive body (already trimmed) contributes.  A `for` header
that does not have at least four whitespace-separated parts with `in` third
contributes nothing, exactly as in the source. -/
def compileDirective (directive : Str) : List Instr :=
  if strStarts directive "if ".data then
    [.jumpIfFalsy (parseVariablePath (strTrim (directive.drop 3))) 0]
  else if directive == "/if".data then [.nop]
  else if strStarts directive "for ".data then
    let parts := splitWs directive
    if parts.length ≥ 4 && parts.get? 2 == some "in".data then
      [.startLoop (parts.getD 1 []) (parseVariablePath (parts.getD 3 []))]
    else []
  else if directive == "/for".data then [.endLoop 0]
  else if strStarts directive "& ".data then
    [.outputRaw (parseVariablePath (strTrim (directive.drop 2)))]
  else [.outputVariable (parseVariablePath directive)]

/-- `TemplateCompiler::compile` (bytecode.rs).  The source walks a char
vector with a cursor; the embedding recurses on the remaining suffix.  The
source's bounded scan for the closing `\x7d\x7d` is `strFind?` on the text
after the opening braces. -/
def compileAux (fuel : Nat) (s : Str) (acc : List Instr) : M (List Instr) :=
  match fuel with
  | 0 => mDiv
  | f + 1 =>
    match s with
    | [] => pure acc.reverse
    | _ :: _ =>
      if strStarts s "\x7b\x7b".data then
        match strFind? (s.drop 2) "\x7d\x7d".data with
        | none => mThrow (.parse "Unclosed directive".data)
        | some k =>
          let directive := strTrim (strSlice s 2 (2 + k))
          compileAux f (s.drop (2 + k + 2))
            ((compileDirective directive).reverse ++ acc)
      else
        match strFind? s "\x7b\x7b".data with
        | none => pure (List.reverse (Instr.outputLiteral s :: acc))
        | some i =>
          compileAux f (s.drop i) (Instr.outputLiteral (s.take i) :: acc)

def compile (template : Str) : M (List Instr) :=
  compileAux (template.length + 1) template []

/-- `BytecodeExecutor::resolve_variable_path` (bytecode.rs). -/
def resolveVariablePath (path : List Str) (ctx : Ctx) : Str :=
  match path with
  | [] => []
  | [single] => (ctxGetString? ctx single).getD []
  | root :: rest =>
    match ctxGet? ctx root with
    | some v => traverseNestedValue v rest
    | none => []

/-- `BytecodeExecutor::get_nested_value` (bytecode.rs): `Option`-returning
nested lookup used by `JumpIfFalsy`. -/
def execGetNestedValue (v : TemplateValue) (parts : List Str) :
    Option TemplateValue :=
  match parts with
  | [] => some v
  | p :: rest =>
    match v with
    | .obj fields =>
      match (fields.find? (fun q => q.1 == p)).map (·.2) with
      | some next => execGetNestedValue next rest
      | none => none
    | .arr items =>
      match parseNat? p with
      | some i =>
        match items.get? i with
        | some el => execGetNestedValue el rest
        | none => none
      | none => none
    | _ => none

/-- The truthiness test of `JumpIfFalsy` in `BytecodeExecutor::execute`. -/
def execIsTruthy (path : List Str) (ctx : Ctx) : Bool :=
  match path with
  | [single] =>
    match ctxGet? ctx single with
    | some v => isTruthy v
    | none => false
  | root :: rest =>
    match ctxGet? ctx root with
    | some rv =>
      match execGetNestedValue rv rest with
      | some v => isTruthy v
      | none => false
    | none => false
  | [] => false

/-- The `while … !Nop` skip of a falsy `JumpIfFalsy`: first index `≥ pc`
holding `Nop` (or the end of the program). -/
def skipToNop (instrs : List Instr) (pc : Nat) (fuel : Nat) : Nat :=
  match fuel with
  | 0 => pc
  | f + 1 =>
    match instrs.get? pc with
    | none => pc
    | some .nop => pc
    | some _ => skipToNop instrs (pc + 1) f

/-- `BytecodeExecutor::execute` (bytecode.rs).  `StartLoop`, `EndLoop` and
`Jump` are the source's simplified no-ops; the program counter only ever
advances, so `instrs.length + 1` fuel is always enough. -/
def executeAux (fuel : Nat) (instrs : List Instr) (pc : Nat) (ctx : Ctx)
    (output : Str) : M Str :=
  match fuel with
  | 0 => mDiv
  | f + 1 =>
    match instrs.get? pc with
    | none => pure output
    | some instr =>
      match instr with
      | .outputLiteral text => executeAux f instrs (pc + 1) ctx (output ++ text)
      | .outputVariable path =>
        executeAux f instrs (pc + 1) ctx
          (output ++ escapeHtml (resolveVariablePath path ctx))
      | .outputRaw path =>
        executeAux f instrs (pc + 1) ctx (output ++ resolveVariablePath path ctx)
      | .jumpIfFalsy path _ =>
        if execIsTruthy path ctx then executeAux f instrs (pc + 1) ctx output
        else executeAux f instrs (skipToNop instrs pc instrs.length + 1) ctx output
      | .jump _ => executeAux f instrs (pc + 1) ctx output
      | .startLoop _ _ => executeAux f instrs (pc + 1) ctx output
      | .endLoop _ => executeAux f instrs (pc + 1) ctx output
      | .nop => executeAux f instrs (pc + 1) ctx output

def execute (instrs : List Instr) (ctx : Ctx) : M Str :=
  executeAux (instrs.length + 1) instrs 0 ctx []

/-! ## Layout types, engine state, file system, loader -/

/-- `MacroDefinition` (engine.rs). -/
structure MacroDef where
  name : Str
  params : List Str
  body : Str

/-- `Block` (layouts.rs); the `parent_content` field is `None` at every
construction site in the source and never read, so it is omitted. -/
structure LayoutBlock where
  name : Str
  content : Str

/-- `LayoutInfo` (layouts.rs); `extendsParent` is the `extends` field. -/
structure LayoutInfo where
  extendsParent : Option Str
  blocks : List (Str × LayoutBlock)
  content : Str

/-- The mutable state of `TemplateEngine` (engine.rs) that the core uses.
The v0.4/v0.5 developer-experience fields (debug flag, hot reload, mtimes,
dependency tracking, wasm logging) are not modelled: no claim touches them
and with hot reload disabled they do not influence rendering. -/
structure Engine where
  templateDir : Str
  cache : List (Str × Str)
  bytecodeCacheEnabled : Bool
  bytecodeCache : List (Str × Compiled)
  layouts : List (Str × LayoutInfo)
  macros : List (Str × MacroDef)
  helpers : List (Str × HelperFn)
  translations : List (Str × List (Str × Str))
  currentLocale : Option Str
  customFilters : List (Str × FilterFn)

/-- `TemplateEngine::new` (engine.rs). -/
def engineNew (dir : Str) : Engine :=
  { templateDir := dir, cache := [], bytecodeCacheEnabled := false,
    bytecodeCache := [], layouts := [], macros := [], helpers := [],
    translations := [], currentLocale := none, customFilters := [] }

/-- Association-list insert with `HashMap::insert` semantics. -/
def alInsert (m : List (Str × α)) (k : Str) (v : α) : List (Str × α) :=
  (k, v) :: m.filter (fun p => !(p.1 == k))

def alGet? (m : List (Str × α)) (k : Str) : Option α :=
  (m.find? (fun p => p.1 == k)).map (·.2)

/-- Abstract view of the file system under one template directory:
`read name` is `fs::read_to_string(template_dir.join(name))`, `dirCanon` is
`template_dir.canonicalize()`, `resolveJoin name` is
`template_dir_canonical.join(name).canonicalize()`, and `insideDir p` is
`p.starts_with(template_dir_canonical)` on the canonical path. -/
structure Fs where
  read : Str → Option Str
  dirCanon : Option Str
  resolveJoin : Str → Option Str
  insideDir : Str → Bool

/-- `TemplateEngine::validate_template_path` (engine.rs). -/
def validateTemplatePath (fs : Fs) (name : Str) : Except TErr Unit :=
  if strContains name "..".data then
    Except.error (.security "Path traversal attempt detected".data)
  else if name.head? = some '/' ∨ name.head? = some '\\' then
    Except.error (.security "Absolute path not allowed".data)
  else if 3 ≤ byteLen name ∧ name.get? 1 = some ':' then
    Except.error (.security "Drive letter path not allowed".data)
  else
    match fs.dirCanon with
    | none => Except.error (.security "Invalid template directory".data)
    | some _ =>
      match fs.resolveJoin name with
      | some resolved =>
        if fs.insideDir resolved then Except.ok ()
        else Except.error (.security "Path traversal attempt detected".data)
      | none => Except.ok ()

/-- `TemplateEngine::load_template` (engine.rs).  The `io::Error` text that
the source interpolates into the message is omitted. -/
def loadTemplate (e : Engine) (fs : Fs) (name : Str) :
    Except TErr (Str × Engine) :=
  match alGet? e.cache name with
  | some cached => Except.ok (cached, e)
  | none =>
    match validateTemplatePath fs name with
    | Except.error err => Except.error err
    | Except.ok () =>
      match fs.read name with
      | some content =>
        Except.ok (content, { e with cache := alInsert e.cache name content })
      | none =>
        Except.error (.template
          ("Failed to read template '".data ++ name ++ "'".data))

/-! ## Layout processor (src/src/layouts.rs) -/

/-- `LayoutProcessor::find_extends_directive` (layouts.rs). -/
def findExtendsDirective (content : Str) : Option Str :=
  match strFind? content "\x7b\x7bextends ".data with
  | none => none
  | some start =>
    match strFind? (content.drop start) "\x7d\x7d".data with
    | none => none
    | some e =>
      some (trimMatchesChar (trimMatchesChar
        (strTrim (strSlice content (start + 10) (start + e))) '"') '\'')

/-- `LayoutProcessor::remove_extends_directive` (layouts.rs). -/
def removeExtendsDirective (content : Str) : Str :=
  match strFind? content "\x7b\x7bextends ".data with
  | none => content
  | some start =>
    match strFind? (content.drop start) "\x7d\x7d".data with
    | none => content
    | some e => strTrim (content.take start ++ content.drop (start + e + 2))

/-- `LayoutProcessor::find_matching_block_end` (layouts.rs): depth counter
over `\x7b\x7bblock ` opens and the two closing forms. -/
def findMatchingBlockEnd (fuel : Nat) (content : Str) (blockName : Str)
    (pos nesting : Nat) : M Nat :=
  let endTag := "\x7b\x7b/block ".data ++ blockName ++ "\x7d\x7d".data
  let simpleEndTag := "\x7b\x7b/block\x7d\x7d".data
  match fuel with
  | 0 => mDiv
  | f + 1 =>
    if pos < content.length then
      let remaining := content.drop pos
      match strFind? remaining "\x7b\x7bblock ".data with
      | some openPos =>
        (match strFind? remaining simpleEndTag with
        | some closePos =>
          if openPos < closePos then
            findMatchingBlockEnd f content blockName (pos + openPos + 8) (nesting + 1)
          else
            if nesting - 1 == 0 then pure (pos + closePos)
            else findMatchingBlockEnd f content blockName
              (pos + closePos + simpleEndTag.length) (nesting - 1)
        | none =>
          match strFind? remaining endTag with
          | some closePos =>
            if nesting - 1 == 0 then pure (pos + closePos)
            else findMatchingBlockEnd f content blockName
              (pos + closePos + endTag.length) (nesting - 1)
          | none =>
            mThrow (.parse ("Missing \x7b\x7b/block\x7d\x7d for block '".data ++
              blockName ++ "'".data)))
      | none =>
        match strFind? remaining simpleEndTag with
        | some closePos =>
          if nesting - 1 == 0 then pure (pos + closePos)
          else findMatchingBlockEnd f content blockName
            (pos + closePos + simpleEndTag.length) (nesting - 1)
        | none =>
          match strFind? remaining endTag with
          | some closePos =>
            if nesting - 1 == 0 then pure (pos + closePos)
            else findMatchingBlockEnd f content blockName
              (pos + closePos + endTag.length) (nesting - 1)
          | none =>
            mThrow (.parse ("Missing \x7b\x7b/block\x7d\x7d for block '".data ++
              blockName ++ "'".data))
    else
      mThrow (.parse ("Missing \x7b\x7b/block\x7d\x7d for block '".data ++
        blockName ++ "'".data))

/-- `LayoutProcessor::extract_blocks` (layouts.rs).  The skip distances
`block_name.len() + 10` and `9` reproduce the source's off-by-one (both are
one short of the closing tag's length); this is harmless because the next
search starts inside the final `\x7d` and only looks forward. -/
def extractBlocksAux (fuel : Nat) (content : Str) (pos : Nat)
    (blocks : List (Str × LayoutBlock)) : M (List (Str × LayoutBlock)) :=
  match fuel with
  | 0 => mDiv
  | f + 1 =>
    match strFind? (content.drop pos) "\x7b\x7bblock ".data with
    | none => pure blocks
    | some blockStart =>
      let absoluteStart := pos + blockStart
      match strFind? (content.drop absoluteStart) "\x7d\x7d".data with
      | none => mThrow (.parse "Unclosed block directive".data)
      | some tagEnd =>
        let blockName := strTrim (strSlice content (absoluteStart + 8)
          (absoluteStart + tagEnd))
        let contentStart := absoluteStart + tagEnd + 2
        do
          let blockEnd ← findMatchingBlockEnd (content.length + 1)
            (content.drop contentStart) blockName 0 1
          let absoluteEnd := contentStart + blockEnd
          let blockContent := strTrim (strSlice content contentStart absoluteEnd)
          let newBlocks := alInsert blocks blockName
            { name := blockName, content := blockContent }
          let endTagLen :=
            if strStarts (content.drop absoluteEnd)
              ("\x7b\x7b/block ".data ++ blockName ++ "\x7d\x7d".data)
            then blockName.length + 10 else 9
          extractBlocksAux f content (absoluteEnd + endTagLen) newBlocks

def extractBlocks (content : Str) : M (List (Str × LayoutBlock)) :=
  extractBlocksAux (content.length + 1) content 0 []

/-- `LayoutProcessor::parse_template` (layouts.rs): extract `extends`,
strip it, extract blocks, record the result in the processor map. -/
def parseTemplateLayout (layouts : List (Str × LayoutInfo)) (name content : Str) :
    M (LayoutInfo × List (Str × LayoutInfo)) :=
  let ext := findExtendsDirective content
  let body := match ext with
    | some _ => removeExtendsDirective content
    | none => content
  do
    let blocks ← extractBlocks body
    let info : LayoutInfo := { extendsParent := ext, blocks := blocks, content := body }
    pure (info, alInsert layouts name info)

/-- `LayoutProcessor::process_super_directive` (layouts.rs). -/
def processSuperDirective (content parentContent : Str) : Str :=
  replaceSub content "\x7b\x7bsuper\x7d\x7d".data parentContent

/-- `LayoutProcessor::merge_blocks`, first pass (layouts.rs): walk the fixed
string collecting `(start, end, replacement)` triples.  The accumulator is
built head-first, so it already holds the triples in reverse document order —
the order in which the source's second pass applies them after its
`.reverse()`. -/
def mergeCollectAux (fuel : Nat) (result : Str)
    (childBlocks : List (Str × LayoutBlock)) (pos : Nat)
    (acc : List (Nat × Nat × Str)) : M (List (Nat × Nat × Str)) :=
  match fuel with
  | 0 => mDiv
  | f + 1 =>
    match strFind? (result.drop pos) "\x7b\x7bblock ".data with
    | none => pure acc
    | some blockStart =>
      let absoluteStart := pos + blockStart
      match strFind? (result.drop absoluteStart) "\x7d\x7d".data with
      | none => mThrow (.parse "Unclosed block directive".data)
      | some tagEnd =>
        let blockDirective := strSlice result (absoluteStart + 8) (absoluteStart + tagEnd)
        match (splitWs blockDirective).head? with
        | none => mDiv
        | some blockName =>
          let contentStart := absoluteStart + tagEnd + 2
          do
            let blockContentEnd ← findMatchingBlockEnd (result.length + 1)
              (result.drop contentStart) blockName 0 1
            let absoluteContentEnd := contentStart + blockContentEnd
            let defaultContent := strTrim (strSlice result contentStart absoluteContentEnd)
            let closingTagText := result.drop absoluteContentEnd
            let endTagEnd ←
              if strStarts closingTagText
                ("\x7b\x7b/block ".data ++ blockName ++ "\x7d\x7d".data) then
                pure (absoluteContentEnd + (blockName.length + 11))
              else if strStarts closingTagText "\x7b\x7b/block\x7d\x7d".data then
                pure (absoluteContentEnd + 10)
              else
                mThrow (.parse ("Invalid block end position for '".data ++
                  blockName ++ "'. Found: '".data ++ closingTagText.take 20 ++ "'".data))
            let replacement :=
              match alGet? childBlocks blockName with
              | some childBlock => processSuperDirective childBlock.content defaultContent
              | none => defaultContent
            mergeCollectAux f result childBlocks endTagEnd
              ((absoluteStart, endTagEnd, replacement) :: acc)

/-- `LayoutProcessor::merge_blocks` (layouts.rs): collect, then replace from
the last site to the first (so earlier positions stay valid).  The unused
`parent_blocks` parameter of the source is omitted. -/
def mergeBlocks (templateContent : Str) (childBlocks : List (Str × LayoutBlock)) :
    M Str := do
  let triples ← mergeCollectAux (templateContent.length + 1) templateContent
    childBlocks 0 []
  pure (triples.foldl (fun r t => replaceRange r t.1 t.2.1 t.2.2) templateContent)

/-- `LayoutProcessor::resolve_inheritance` (layouts.rs): recurse up the
`extends` chain, then merge the target's blocks into the base. -/
def resolveInheritance (fuel : Nat) (layouts : List (Str × LayoutInfo))
    (templateName : Str) : M Str :=
  match fuel with
  | 0 => mDiv
  | f + 1 =>
    match alGet? layouts templateName with
    | none =>
      mThrow (.template ("Template '".data ++ templateName ++ "' not found".data))
    | some layoutInfo =>
      match layoutInfo.extendsParent with
      | some parentName =>
        (match alGet? layouts parentName with
        | none =>
          mThrow (.template ("Parent template '".data ++ parentName ++
            "' not found".data))
        | some parentLayout => do
          let resolvedContent ←
            if parentLayout.extendsParent.isSome then
              resolveInheritance f layouts parentName
            else
              pure parentLayout.content
          mergeBlocks resolvedContent layoutInfo.blocks)
      | none => mergeBlocks layoutInfo.content layoutInfo.blocks

/-! ## Directive processors outside the render cluster (src/src/engine.rs) -/

/-- `TemplateEngine::get_translation` (engine.rs). -/
def getTranslation (e : Engine) (key : Str) : Str :=
  match e.currentLocale with
  | some locale =>
    (match alGet? e.translations locale with
    | some table =>
      match alGet? table key with
      | some translation => translation
      | none => key
    | none => key)
  | none => key

/-- `TemplateEngine::parse_single_helper_arg` (engine.rs). -/
def parseSingleHelperArg (arg : Str) (ctx : Ctx) : TemplateValue :=
  let arg := strTrim arg
  if (arg.head? == some '"' && arg.getLast? == some '"' && arg.length ≥ 2) ||
     (arg.head? == some '\'' && arg.getLast? == some '\'' && arg.length ≥ 2) then
    .str (strSlice arg 1 (arg.length - 1))
  else
    match parseInt? arg with
    | some n => .num n
    | none =>
      if arg == "true".data then .bool true
      else if arg == "false".data then .bool false
      else if strContainsChar arg '.' then
        match splitChar arg '.' with
        | [] => .str arg
        | root :: rest =>
          match ctxGet? ctx root with
          | some v => getNestedValue v rest
          | none => .str arg
      else
        match ctxGet? ctx arg with
        | some v => v
        | none => .str arg

/-- The quote-aware comma split shared by `parse_helper_args` and
`parse_argument_list` (engine.rs): cut at commas outside quotes, keeping the
quote characters in the pieces.  Returns the pieces in order; the caller
handles trimming.  The final piece is kept only when its trim is non-empty,
the comma-separated pieces are kept unconditionally, as in the source. -/
def quotedSplitAux (s : Str) (current : Str) (inQuotes : Bool) (quoteChar : Char)
    (acc : List Str) : List Str :=
  match s with
  | [] =>
    if (strTrim current).isEmpty then acc.reverse
    else (current :: acc).reverse
  | ch :: rest =>
    if (ch == '"' || ch == '\'') && !inQuotes then
      quotedSplitAux rest (current ++ [ch]) true ch acc
    else if inQuotes && ch == quoteChar then
      quotedSplitAux rest (current ++ [ch]) false quoteChar acc
    else if ch == ',' && !inQuotes then
      quotedSplitAux rest [] false quoteChar (current :: acc)
    else
      quotedSplitAux rest (current ++ [ch]) inQuotes quoteChar acc

/-- `TemplateEngine::parse_argument_list` (engine.rs): pieces trimmed. -/
def parseArgumentList (argsStr : Str) : List Str :=
  (quotedSplitAux argsStr [] false '"' []).map strTrim

/-- `TemplateEngine::parse_helper_args` (engine.rs): empty string gives no
arguments, otherwise each quote-aware piece is trimmed and parsed. -/
def parseHelperArgs (argsStr : Str) (ctx : Ctx) : List TemplateValue :=
  if (strTrim argsStr).isEmpty then []
  else (quotedSplitAux argsStr [] false '"' []).map
    (fun a => parseSingleHelperArg (strTrim a) ctx)

/-- `TemplateEngine::process_helper_call` (engine.rs): `some` when the
expression is a call of a registered helper. -/
def processHelperCall (helpers : List (Str × HelperFn)) (expression : Str)
    (ctx : Ctx) : Except TErr (Option Str) :=
  match strFind? expression "(".data with
  | none => Except.ok none
  | some parenPos =>
    let funcName := strTrim (expression.take parenPos)
    match alGet? helpers funcName with
    | none => Except.ok none
    | some helper =>
      match strRevFindChar? expression ')' with
      | none =>
        Except.error (.parse ("Unclosed parentheses in helper call: ".data ++
          expression))
      | some closeParen =>
        let argsStr := strSlice expression (parenPos + 1) closeParen
        let args := parseHelperArgs argsStr ctx
        match helper args with
        | Except.error err => Except.error err
        | Except.ok resultValue =>
          Except.ok (some (templateValueToString resultValue))

/-- `TemplateEngine::process_conditionals` (engine.rs). -/
def processConditionals (fuel : Nat) (template : Str) (ctx : Ctx) : M Str :=
  match fuel with
  | 0 => mDiv
  | f + 1 =>
    match strFind? template "\x7b\x7bif ".data with
    | none => pure template
    | some ifStart =>
      match strFind? (template.drop ifStart) "\x7d\x7d".data with
      | none => mThrow (.parse "Unclosed if directive".data)
      | some ifEnd =>
        let condition := strTrim (strSlice template (ifStart + 5) (ifStart + ifEnd))
        let blockStart := ifStart + ifEnd + 2
        match strFind? (template.drop blockStart) "\x7b\x7b/if\x7d\x7d".data with
        | none => mThrow (.parse "Missing \x7b\x7b/if\x7d\x7d directive".data)
        | some blockEnd =>
          let blockContent := strSlice template blockStart (blockStart + blockEnd)
          let shouldInclude := evaluateCondition condition ctx
          let replacement := if shouldInclude then blockContent else []
          processConditionals f
            (replaceRange template ifStart (blockStart + blockEnd + 7) replacement)
            ctx

/-- `TemplateEngine::process_comments` (engine.rs). -/
def processComments (fuel : Nat) (template : Str) : Str :=
  match fuel with
  | 0 => template
  | f + 1 =>
    match strFind? template "\x7b\x7b!".data with
    | none => template
    | some start =>
      match strFind? (template.drop start) "\x7d\x7d".data with
      | none => template
      | some e => processComments f (replaceRange template start (start + e + 2) [])

/-- `TemplateEngine::process_pluralization` (engine.rs). -/
def processPluralization (fuel : Nat) (template : Str) (ctx : Ctx) : M Str :=
  match fuel with
  | 0 => mDiv
  | f + 1 =>
    match strFind? template "\x7b\x7bplural ".data with
    | none => pure template
    | some start =>
      match strFind? (template.drop start) "\x7d\x7d".data with
      | none => mThrow (.parse "Unclosed pluralization directive".data)
      | some e =>
        let directive := strSlice template (start + 9) (start + e)
        match splitWs directive with
        | [countVar, singularTok, pluralTok] =>
          let singular := trimMatchesChar (trimMatchesChar singularTok '"') '\''
          let plural := trimMatchesChar (trimMatchesChar pluralTok '"') '\''
          let count : Int :=
            match ctxGet? ctx countVar with
            | some (.num n) => n
            | some _ => 0
            | none => 0
          let chosenForm := if count == 1 then singular else plural
          processPluralization f (replaceRange template start (start + e + 2) chosenForm) ctx
        | _ =>
          mThrow (.parse "Invalid pluralization syntax. Use: \x7b\x7bplural count \"singular\" \"plural\"\x7d\x7d".data)

/-- `TemplateEngine::parse_macro_header` (engine.rs). -/
def parseMacroHeader (header : Str) : Except TErr (Str × List Str) :=
  match strFind? header "(".data with
  | none => Except.ok (strTrim header, [])
  | some parenPos =>
    let macroName := strTrim (header.take parenPos)
    let paramsStr := header.drop (parenPos + 1)
    match strRevFindChar? paramsStr ')' with
    | none =>
      Except.error (.parse ("Invalid macro header: ".data ++ header))
    | some closeParen =>
      let paramsContent := paramsStr.take closeParen
      let parameters :=
        if (strTrim paramsContent).isEmpty then []
        else (splitChar paramsContent ',').map fun p =>
          let param := strTrim p
          match strFind? param "=".data with
          | some eqPos => strTrim (param.take eqPos)
          | none => param
      Except.ok (macroName, parameters)

/-- `TemplateEngine::extract_macro_definitions` (engine.rs): returns the
template with definitions removed together with the updated macro table. -/
def extractMacroDefs (fuel : Nat) (macros : List (Str × MacroDef))
    (template : Str) : M (Str × List (Str × MacroDef)) :=
  match fuel with
  | 0 => mDiv
  | f + 1 =>
    match strFind? template "\x7b\x7bmacro ".data with
    | none => pure (template, macros)
    | some macroStart =>
      match strFind? (template.drop macroStart) "\x7d\x7d".data with
      | none => mThrow (.parse "Unclosed macro definition".data)
      | some headerEnd =>
        let macroHeader := strSlice template (macroStart + 8) (macroStart + headerEnd)
        let bodyStart := macroStart + headerEnd + 2
        match strFind? (template.drop bodyStart) "\x7b\x7b/macro\x7d\x7d".data with
        | none => mThrow (.parse "Missing \x7b\x7b/macro\x7d\x7d directive".data)
        | some bodyEnd =>
          let macroBody := strTrim (strSlice template bodyStart (bodyStart + bodyEnd))
          match parseMacroHeader macroHeader with
          | Except.error err => some (Except.error err)
          | Except.ok (macroName, parameters) =>
            let newMacros := alInsert macros macroName
              { name := macroName, params := parameters, body := macroBody }
            extractMacroDefs f newMacros
              (replaceRange template macroStart (bodyStart + bodyEnd + 10) [])

/-- `TemplateEngine::variable_exists_in_context` (engine.rs). -/
def variableExistsInContext (variableName : Str) (ctx : Ctx) : Bool :=
  if strContainsChar variableName '.' then
    match splitChar variableName '.' with
    | [] => false
    | root :: _ => (ctxGet? ctx root).isSome
  else (ctxGet? ctx variableName).isSome

/-- `TemplateEngine::resolve_variable_from_context` (engine.rs). -/
def resolveVariableFromContext (variableName : Str) (ctx : Ctx) : TemplateValue :=
  if strContainsChar variableName '.' then
    match splitChar variableName '.' with
    | [] => .str []
    | root :: rest =>
      match ctxGet? ctx root with
      | some v => getNestedValue v rest
      | none => .str []
  else
    match ctxGet? ctx variableName with
    | some v => v
    | none => .str []

/-- `TemplateEngine::can_resolve_macro_args` (engine.rs). -/
def canResolveMacroArgs (callContent : Str) (ctx : Ctx) : Except TErr Bool :=
  match strFind? callContent "(".data with
  | none => Except.error (.parse "Invalid macro call syntax".data)
  | some parenStart =>
    match strRevFindChar? callContent ')' with
    | none => Except.error (.parse "Invalid macro call syntax".data)
    | some parenEnd =>
      let argsStr := strSlice callContent (parenStart + 1) parenEnd
      if (strTrim argsStr).isEmpty then Except.ok true
      else
        let args := parseArgumentList argsStr
        Except.ok (args.all fun arg =>
          match strFind? arg "=".data with
          | some eqPos =>
            let paramValueStr := strTrim (arg.drop (eqPos + 1))
            if !(paramValueStr.head? == some '"') &&
               !(paramValueStr.head? == some '\'') then
              variableExistsInContext paramValueStr ctx
            else true
          | none =>
            let argTrimmed := strTrim arg
            if !(argTrimmed.head? == some '"') &&
               !(argTrimmed.head? == some '\'') then
              variableExistsInContext argTrimmed ctx
            else true)

/-- `TemplateEngine::parse_macro_call_args_with_context` (engine.rs): the
map from parameter names / positional index strings to resolved values. -/
def parseMacroCallArgsWithCtx (callContent : Str) (ctx : Ctx) :
    Except TErr (List (Str × TemplateValue)) :=
  match strFind? callContent "(".data with
  | none => Except.error (.parse "Invalid macro call syntax".data)
  | some parenStart =>
    match strRevFindChar? callContent ')' with
    | none => Except.error (.parse "Invalid macro call syntax".data)
    | some parenEnd =>
      let argsStr := strSlice callContent (parenStart + 1) parenEnd
      if (strTrim argsStr).isEmpty then Except.ok []
      else
        let args := parseArgumentList argsStr
        let step := fun (st : List (Str × TemplateValue) × Nat) (arg : Str) =>
          match strFind? arg "=".data with
          | some eqPos =>
            let paramName := strTrim (arg.take eqPos)
            let paramValueStr := strTrim (arg.drop (eqPos + 1))
            let paramValue :=
              if paramValueStr.head? == some '"' || paramValueStr.head? == some '\'' then
                TemplateValue.str (trimMatchesChar (trimMatchesChar paramValueStr '"') '\'')
              else resolveVariableFromContext paramValueStr ctx
            (alInsert st.1 paramName paramValue, st.2)
          | none =>
            let argTrimmed := strTrim arg
            let paramValue :=
              if argTrimmed.head? == some '"' || argTrimmed.head? == some '\'' then
                TemplateValue.str (trimMatchesChar (trimMatchesChar argTrimmed '"') '\'')
              else resolveVariableFromContext argTrimmed ctx
            (alInsert st.1 (natToStr st.2) paramValue, st.2 + 1)
        Except.ok (args.foldl step ([], 0)).1

/-- `TemplateEngine::find_matching_for_end` (engine.rs): stack-based scan
for the `\x7b\x7b/for\x7d\x7d` matching an already-open `\x7b\x7bfor \x7d\x7d`. -/
def findMatchingForEnd (fuel : Nat) (content : Str) (pos depth : Nat) : M Nat :=
  match fuel with
  | 0 => mDiv
  | f + 1 =>
    if pos < content.length && depth > 0 then
      match strFind? (content.drop pos) "\x7b\x7bfor ".data with
      | some forPos =>
        (match strFind? (strSlice content pos (pos + forPos)) "\x7b\x7b/for\x7d\x7d".data with
        | some endForPos =>
          let actualEndForPos := pos + endForPos
          if depth - 1 == 0 then pure actualEndForPos
          else findMatchingForEnd f content (actualEndForPos + 8) (depth - 1)
        | none =>
          findMatchingForEnd f content (pos + forPos + 6) (depth + 1))
      | none =>
        match strFind? (content.drop pos) "\x7b\x7b/for\x7d\x7d".data with
        | some endForPos =>
          let actualEndForPos := pos + endForPos
          if depth - 1 == 0 then pure actualEndForPos
          else findMatchingForEnd f content (actualEndForPos + 8) (depth - 1)
        | none => mThrow (.parse "Missing \x7b\x7b/for\x7d\x7d directive".data)
    else mThrow (.parse "Missing \x7b\x7b/for\x7d\x7d directive".data)

/-- `str::rfind` for string patterns (used for `rfind("\x7b\x7b")`). -/
def strRevFind? (hay pat : Str) : Option Nat :=
  match hay with
  | [] => if pat.isEmpty then some 0 else none
  | _ :: rest =>
    match strRevFind? rest pat with
    | some i => some (i + 1)
    | none => if strStarts hay pat then some 0 else none

def mOfExcept (x : Except TErr α) : M α := some x

/-- The `\x7b\x7b& \x7d\x7d` raw-variable loop of
`TemplateEngine::process_variables` (engine.rs). -/
def processVariablesRaw (fuel : Nat) (customs : List (Str × FilterFn))
    (template : Str) (ctx : Ctx) : M Str :=
  match fuel with
  | 0 => mDiv
  | f + 1 =>
    match strFind? template "\x7b\x7b& ".data with
    | none => pure template
    | some start =>
      match strFind? (template.drop start) "\x7d\x7d".data with
      | none => mThrow (.parse "Unclosed variable directive".data)
      | some e =>
        let varName := strTrim (strSlice template (start + 4) (start + e))
        match getVariableValue customs varName ctx with
        | none => mDiv
        | some value =>
          processVariablesRaw f customs
            (replaceRange template start (start + e + 2) value) ctx

/-- The escaped-variable loop of `TemplateEngine::process_variables`
(engine.rs): skip (and delete) already-processed directive forms, expand
helper calls, then substitute the variable, HTML-escaping unless the filter
chain ends in an HTML-producing filter.  Substituted text is rescanned, as
in the source. -/
def processVariablesEsc (fuel : Nat) (helpers : List (Str × HelperFn))
    (customs : List (Str × FilterFn)) (template : Str) (ctx : Ctx) : M Str :=
  match fuel with
  | 0 => mDiv
  | f + 1 =>
    match strFind? template "\x7b\x7b".data with
    | none => pure template
    | some start =>
      let fromStart := template.drop start
      if strStarts fromStart "\x7b\x7bif ".data ||
         strStarts fromStart "\x7b\x7bfor ".data ||
         strStarts fromStart "\x7b\x7binclude ".data ||
         strStarts fromStart "\x7b\x7b!".data ||
         strStarts fromStart "\x7b\x7b/".data then
        match strFind? fromStart "\x7d\x7d".data with
        | some skipEnd =>
          processVariablesEsc f helpers customs
            (template.take start ++ template.drop (start + skipEnd + 2)) ctx
        | none => pure template
      else
        match strFind? fromStart "\x7d\x7d".data with
        | none => mThrow (.parse "Unclosed variable directive".data)
        | some e =>
          let varName := strTrim (strSlice template (start + 2) (start + e))
          match processHelperCall helpers varName ctx with
          | Except.error err => mThrow err
          | Except.ok (some helperResult) =>
            processVariablesEsc f helpers customs
              (replaceRange template start (start + e + 2) helperResult) ctx
          | Except.ok none =>
            match getVariableValue customs varName ctx with
            | none => mDiv
            | some value =>
              let shouldEscape :=
                if strContainsChar varName '|' then !usesHtmlProducingFilter varName
                else true
              let finalValue := if shouldEscape then escapeHtml value else value
              processVariablesEsc f helpers customs
                (replaceRange template start (start + e + 2) finalValue) ctx

/-- `TemplateEngine::process_variables` (engine.rs): the raw loop, then the
escaped loop. -/
def processVariables (fuel : Nat) (helpers : List (Str × HelperFn))
    (customs : List (Str × FilterFn)) (template : Str) (ctx : Ctx) : M Str := do
  let r ← processVariablesRaw fuel customs template ctx
  processVariablesEsc fuel helpers customs r ctx

/-- `TemplateEngine::process_includes` (engine.rs): load, recursively
process, splice; no cycle guard, so the recursion runs on the caller's fuel. -/
def processIncludes (fuel : Nat) (e : Engine) (fs : Fs) (template : Str) :
    M (Str × Engine) :=
  match fuel with
  | 0 => mDiv
  | f + 1 =>
    match strFind? template "\x7b\x7binclude ".data with
    | none => pure (template, e)
    | some start =>
      match strFind? (template.drop start) "\x7d\x7d".data with
      | none => mThrow (.parse "Unclosed include directive".data)
      | some en => do
        let directive := strSlice template (start + 10) (start + en)
        let includeName := trimMatchesChar (trimMatchesChar (strTrim directive) '"') '\''
        let (includedContent, e1) ← mOfExcept (loadTemplate e fs includeName)
        let (processedIncluded, e2) ← processIncludes f e1 fs includedContent
        processIncludes f e2 fs
          (replaceRange template start (start + en + 2) processedIncluded)

/-! ## The render cluster (src/src/engine.rs): mutually recursive through
macros (`expand → render_string`), translations (`t → render_string`) and
loops, all on one shared fuel. -/

mutual

/-- `TemplateEngine::render_string` (engine.rs): the fixed stage order —
macros (extraction then calls), includes, conditionals, loops, translations,
pluralization, variables, comments. -/
def renderString (fuel : Nat) (e : Engine) (fs : Fs) (template : Str)
    (ctx : Ctx) : M (Str × Engine) :=
  match fuel with
  | 0 => mDiv
  | f + 1 => do
    let (r1, macros1) ← extractMacroDefs (template.length + 1) e.macros template
    let e1 := { e with macros := macros1 }
    let (r2, e2) ← processMacroCalls f e1 fs r1 ctx
    let (r3, e3) ← processIncludes f e2 fs r2
    let r4 ← processConditionals (r3.length + 1) r3 ctx
    let (r5, e4) ← processLoops f e3 fs r4 ctx
    let (r6, e5) ← processTranslations f e4 fs r5 ctx
    let r7 ← processPluralization (r6.length + 1) r6 ctx
    let r8 ← processVariables f e5.helpers e5.customFilters r7 ctx
    pure (processComments (r8.length + 1) r8, e5)

/-- `TemplateEngine::process_macro_calls_with_context` (engine.rs): iterate
over a snapshot of the macro table. -/
def processMacroCalls (fuel : Nat) (e : Engine) (fs : Fs) (template : Str)
    (ctx : Ctx) : M (Str × Engine) :=
  match fuel with
  | 0 => mDiv
  | f + 1 => processMacroCallsList f e fs template ctx e.macros

/-- The `for (macro_name, macro_def) in &macros_clone` walk of
`process_macro_calls_with_context`. -/
def processMacroCallsList (fuel : Nat) (e : Engine) (fs : Fs) (template : Str)
    (ctx : Ctx) (remaining : List (Str × MacroDef)) : M (Str × Engine) :=
  match fuel with
  | 0 => mDiv
  | f + 1 =>
    match remaining with
    | [] => pure (template, e)
    | (macroName, macroDef) :: rest => do
      let (t1, e1) ← processMacroCallLoop f e fs template ctx macroName macroDef
      processMacroCallsList f e1 fs t1 ctx rest

/-- The `while let Some(call_start) = result.find(&call_pattern)` loop of
`process_macro_calls_with_context`: expand one macro's calls; a call whose
variable arguments are unresolvable breaks the loop (to be retried inside a
loop body later). -/
def processMacroCallLoop (fuel : Nat) (e : Engine) (fs : Fs) (template : Str)
    (ctx : Ctx) (macroName : Str) (macroDef : MacroDef) : M (Str × Engine) :=
  match fuel with
  | 0 => mDiv
  | f + 1 =>
    match strFind? template (macroName ++ "(".data) with
    | none => pure (template, e)
    | some callStart =>
      match strRevFind? (template.take callStart) "\x7b\x7b".data with
      | none => mThrow (.parse "Invalid macro call".data)
      | some startPos =>
        match strFind? (template.drop callStart) "\x7d\x7d".data with
        | none => mThrow (.parse "Unclosed macro call".data)
        | some k =>
          let endPos := callStart + k + 2
          let callContent := strSlice template (startPos + 2) (endPos - 2)
          match canResolveMacroArgs callContent ctx with
          | Except.error err => mThrow err
          | Except.ok canResolve =>
            if !canResolve then pure (template, e)
            else do
              let args ← mOfExcept (parseMacroCallArgsWithCtx callContent ctx)
              let (expanded, e1) ← expandMacroWithValues f e fs macroDef args
              processMacroCallLoop f e1 fs
                (replaceRange template startPos endPos expanded) ctx macroName macroDef

/-- `TemplateEngine::expand_macro_with_values` (engine.rs): bind parameters
(named first, then positional by index string, else empty string) into a
fresh context and render the body. -/
def expandMacroWithValues (fuel : Nat) (e : Engine) (fs : Fs)
    (macroDef : MacroDef) (args : List (Str × TemplateValue)) :
    M (Str × Engine) :=
  match fuel with
  | 0 => mDiv
  | f + 1 =>
    let macroCtx := (macroDef.params.foldl (fun (st : Ctx × Nat) param =>
      let value :=
        match alGet? args param with
        | some namedValue => namedValue
        | none =>
          match alGet? args (natToStr st.2) with
          | some positionalValue => positionalValue
          | none => TemplateValue.str []
      (ctxSet st.1 param value, st.2 + 1)) ([], 0)).1
    renderString f e fs macroDef.body macroCtx

/-- `TemplateEngine::process_loops` (engine.rs). -/
def processLoops (fuel : Nat) (e : Engine) (fs : Fs) (template : Str)
    (ctx : Ctx) : M (Str × Engine) :=
  match fuel with
  | 0 => mDiv
  | f + 1 =>
    match strFind? template "\x7b\x7bfor ".data with
    | none => pure (template, e)
    | some forStart =>
      match strFind? (template.drop forStart) "\x7d\x7d".data with
      | none => mThrow (.parse "Unclosed for directive".data)
      | some forEnd =>
        let loopDef := strTrim (strSlice template (forStart + 6) (forStart + forEnd))
        match splitSub loopDef " in ".data with
        | [itemPart, arrayPart] =>
          let itemVar := strTrim itemPart
          let arrayVar := strTrim arrayPart
          let blockStart := forStart + forEnd + 2
          do
            let blockEnd ← findMatchingForEnd (template.length + 1)
              (template.drop blockStart) 0 1
            let blockContent := strSlice template blockStart (blockStart + blockEnd)
            let (replacement, e1) ← renderLoop f e fs itemVar arrayVar blockContent ctx
            processLoops f e1 fs
              (replaceRange template forStart (blockStart + blockEnd + 8) replacement) ctx
        | _ => mThrow (.parse "Invalid for loop syntax".data)

/-- `TemplateEngine::render_loop` (engine.rs): the array variable is looked
up directly in the top-level context map (`context.variables.get`); for each
element the body is re-run through the macro-call, loop, conditional and
variable stages in a child context with the item bound. -/
def renderLoop (fuel : Nat) (e : Engine) (fs : Fs) (itemVar arrayVar block : Str)
    (ctx : Ctx) : M (Str × Engine) :=
  match fuel with
  | 0 => mDiv
  | f + 1 =>
    match ctxGet? ctx arrayVar with
    | some (.arr items) => renderLoopItems f e fs itemVar block ctx items []
    | _ =>
      if strContainsChar arrayVar '(' && strContainsChar arrayVar ')' then
        mThrow (.template ("Function '".data ++ arrayVar ++
          "' is not supported".data))
      else pure ([], e)

/-- The `for item in items` body of `render_loop`. -/
def renderLoopItems (fuel : Nat) (e : Engine) (fs : Fs) (itemVar block : Str)
    (ctx : Ctx) (items : List TemplateValue) (acc : Str) : M (Str × Engine) :=
  match fuel with
  | 0 => mDiv
  | f + 1 =>
    match items with
    | [] => pure (acc, e)
    | item :: rest => do
      let loopCtx := ctxSet ctx itemVar item
      let (b1, e1) ← processMacroCalls f e fs block loopCtx
      let (b2, e2) ← processLoops f e1 fs b1 loopCtx
      let b3 ← processConditionals (b2.length + 1) b2 loopCtx
      let b4 ← processVariables f e2.helpers e2.customFilters b3 loopCtx
      renderLoopItems f e2 fs itemVar block ctx rest (acc ++ b4)

/-- `TemplateEngine::process_translations` (engine.rs): look the key up,
then render the translation as a template in the current context. -/
def processTranslations (fuel : Nat) (e : Engine) (fs : Fs) (template : Str)
    (ctx : Ctx) : M (Str × Engine) :=
  match fuel with
  | 0 => mDiv
  | f + 1 =>
    match strFind? template "\x7b\x7bt ".data with
    | none => pure (template, e)
    | some start =>
      match strFind? (template.drop start) "\x7d\x7d".data with
      | none => mThrow (.parse "Unclosed translation directive".data)
      | some en => do
        let directive := strSlice template (start + 4) (start + en)
        let translationKey := trimMatchesChar (trimMatchesChar (strTrim directive) '"') '\''
        let translation := getTranslation e translationKey
        let (processedTranslation, e1) ← renderString f e fs translation ctx
        processTranslations f e1 fs
          (replaceRange template start (start + en + 2) processedTranslation) ctx

end

/-! ## Top-level render and the parallel operations (src/src/engine.rs) -/

/-- `TemplateEngine::has_layout_inheritance` (engine.rs). -/
def hasLayoutInheritance (e : Engine) (templateName : Str) : Bool :=
  ((alGet? e.layouts templateName).map (fun l => l.extendsParent.isSome)).getD false

/-- `TemplateEngine::load_parent_templates` (engine.rs). -/
def loadParentTemplates (fuel : Nat) (e : Engine) (fs : Fs) (templateName : Str) :
    M Engine :=
  match fuel with
  | 0 => mDiv
  | f + 1 =>
    match alGet? e.layouts templateName with
    | none => pure e
    | some layout =>
      match layout.extendsParent with
      | none => pure e
      | some parentName => do
        let e1 ←
          if (alGet? e.layouts parentName).isNone then do
            let (parentContent, ea) ← mOfExcept (loadTemplate e fs parentName)
            let (_, layouts1) ← parseTemplateLayout ea.layouts parentName parentContent
            pure { ea with layouts := layouts1 }
          else pure e
        loadParentTemplates f e1 fs parentName

/-- `TemplateEngine::render` (engine.rs): load, parse layout info, load the
parent chain, resolve inheritance when the template extends a parent, then
render the resulting string. -/
def render (fuel : Nat) (e : Engine) (fs : Fs) (templateName : Str) (ctx : Ctx) :
    M (Str × Engine) :=
  match fuel with
  | 0 => mDiv
  | f + 1 => do
    let (template, e1) ← mOfExcept (loadTemplate e fs templateName)
    let (_, layouts1) ← parseTemplateLayout e1.layouts templateName template
    let e2 := { e1 with layouts := layouts1 }
    let e3 ← loadParentTemplates f e2 fs templateName
    let finalTemplate ←
      if hasLayoutInheritance e3 templateName then
        resolveInheritance f e3.layouts templateName
      else pure template
    renderString f e3 fs finalTemplate ctx

/-- The join-and-collect loop shared by the parallel operations: results in
input order, first failure short-circuits (a worker that never finishes
blocks the whole call). -/
def joinHandles : List (M α) → M (List α)
  | [] => pure []
  | h :: t => do
    let r ← h
    let rest ← joinHandles t
    pure (r :: rest)

/-- `TemplateEngine::render_parallel` (engine.rs): one worker per template
name, each with a brand-new engine built from the template directory alone
(`TemplateEngine::new(&template_dir)`), over a clone of the context; results
are joined in input order.  Worker scheduling is not observable — each
worker's result is a pure function of the directory view, the name and the
context — so the spawned threads are modelled by their result values. -/
def renderParallel (fuel : Nat) (e : Engine) (fs : Fs) (templateNames : List Str)
    (ctx : Ctx) : M (List Str) :=
  joinHandles (templateNames.map fun name =>
    mFst (render fuel (engineNew e.templateDir) fs name ctx))

/-- `TemplateEngine::compile_to_bytecode` (engine.rs). -/
def compileToBytecode (e : Engine) (fs : Fs) (templateName : Str) :
    M (Compiled × Engine) :=
  match (if e.bytecodeCacheEnabled then alGet? e.bytecodeCache templateName
         else none) with
  | some cached => pure (cached, e)
  | none => do
    let (templateContent, e1) ← mOfExcept (loadTemplate e fs templateName)
    let instructions ← compile templateContent
    let compiled : Compiled := (templateName, instructions)
    let e2 :=
      if e1.bytecodeCacheEnabled then
        { e1 with bytecodeCache := alInsert e1.bytecodeCache templateName compiled }
      else e1
    pure (compiled, e2)

/-- `TemplateEngine::compile_templates_parallel` (engine.rs): like
`render_parallel`, one fresh engine per worker. -/
def compileTemplatesParallel (e : Engine) (fs : Fs) (templateNames : List Str) :
    M (List Compiled) :=
  joinHandles (templateNames.map fun name =>
    mFst (compileToBytecode (engineNew e.templateDir) fs name))

/-- Sequential rendering of a list of names on one engine, threading the
engine state through the successive `render` calls — the right-hand side of
the spec's parallel-equivalence claim. -/
def renderSeq (fuel : Nat) (e : Engine) (fs : Fs) (templateNames : List Str)
    (ctx : Ctx) : M (List Str) :=
  match templateNames with
  | [] => pure []
  | name :: rest => do
    let (r, e1) ← render fuel e fs name ctx
    let rs ← renderSeq fuel e1 fs rest ctx
    pure (r :: rs)

/-! ## Shared lemmas -/

theorem drop_app (A B : Str) : (A ++ B).drop A.length = B := by
  simp

theorem take_app (A B : Str) : (A ++ B).take A.length = A := by
  simp

theorem drop_app_add (A B : Str) (k : Nat) :
    (A ++ B).drop (A.length + k) = B.drop k := by
  induction A with
  | nil => simp
  | cons c rest ih => simp [List.drop, Nat.succ_add, ih]

theorem take_app_add (A B : Str) (k : Nat) :
    (A ++ B).take (A.length + k) = A ++ B.take k := by
  induction A with
  | nil => simp
  | cons c rest ih => simp [List.take, Nat.succ_add, ih]

theorem strSlice_mid (pre mid post : Str) :
    strSlice (pre ++ (mid ++ post)) pre.length (pre.length + mid.length) = mid := by
  simp [strSlice, take_app_add, take_app, drop_app]

theorem replaceRange_mid (pre mid post r : Str) :
    replaceRange (pre ++ (mid ++ post)) pre.length (pre.length + mid.length) r =
      pre ++ (r ++ post) := by
  simp [replaceRange, take_app, drop_app_add, drop_app]

theorem replaceRange_all (s r : Str) : replaceRange s 0 s.length r = r := by
  simp [replaceRange]

theorem strFind?_of_starts {hay pat : Str} (h : strStarts hay pat = true) :
    strFind? hay pat = some 0 := by
  cases hay with
  | nil =>
    cases pat with
    | nil => simp [strFind?]
    | cons p ps => simp [strStarts] at h
  | cons c rest => simp [strFind?, h]

/-- Values/contexts/instances used by the concrete theorems below. -/
def fsEmpty : Fs :=
  { read := fun _ => none, dirCanon := none, resolveJoin := fun _ => none,
    insideDir := fun _ => false }

def engEmpty : Engine := engineNew "templates".data

/-! ## C1 -/

/-- C1: the claim — rendering the escaped form `\x7b\x7bp\x7d\x7d` never leaves
`< > " '` literally in the output — fails on the code: substituted values are
rescanned by the variable loop, so a context value that itself contains a
directive with an HTML-producing filter (here `\x7b\x7by|markdown\x7d\x7d`) is
expanded on the second pass with escaping disabled, and the render emits the
raw `<p></p>`.  This theorem evaluates the embedded `render_string` at that
failing input. -/
theorem c1_escaped_variable_injection :
    mFst (renderString 20 engEmpty fsEmpty "\x7b\x7bp\x7d\x7d".data
      [(("p".data : Str), TemplateValue.str "\x7b\x7by|markdown\x7d\x7d".data)]) =
      some (Except.ok "<p></p>".data) ∧
    '<' ∈ "<p></p>".data := by
  constructor
  · decide
  · decide

/-! ## C2 -/

/-- Security-kind test on a loader result. -/
def isSecurityErr : Except TErr α → Bool
  | Except.error (.security _) => true
  | _ => false

/-- The directory view used by the C2 counterexample: the template directory
canonicalizes fine, but no file exists. -/
def fsC2 : Fs :=
  { read := fun _ => none, dirCanon := some "/d".data,
    resolveJoin := fun _ => none, insideDir := fun _ => false }

/-- C2 counterexample: the claim promises a `Security` error for every name
whose first two characters are `X:`, but the source guards the drive-letter
check with `name.len() >= 3`, so the two-byte name `C:` passes validation and
`load_template` fails later with a `Template` (read) error instead. -/
theorem c2_drive_letter_two_bytes_not_security :
    isSecurityErr (loadTemplate engEmpty fsC2 "C:".data) = false ∧
    (match loadTemplate engEmpty fsC2 "C:".data with
     | Except.error (.template _) => true
     | _ => false) = true ∧
    ("C:".data.get? 1 = some ':' ∧ byteLen "C:".data = 2) := by
  refine ⟨by decide, by decide, by decide, by decide⟩

/-- C2 (amended): for every name that contains `..`, or starts with `/` or
`\`, or has second character `:` with UTF-8 byte length at least 3, and that
is not already cached, `load_template` returns a `Security` error without
consulting the file system at all (the result is the same for every `fs`). -/
theorem c2_path_validation_security (e : Engine) (name : Str) (fs fs' : Fs)
    (hcache : alGet? e.cache name = none)
    (hbad : strContains name "..".data = true ∨
      name.head? = some '/' ∨ name.head? = some '\\' ∨
      (3 ≤ byteLen name ∧ name.get? 1 = some ':')) :
    isSecurityErr (loadTemplate e fs name) = true ∧
    loadTemplate e fs name = loadTemplate e fs' name := by
  unfold loadTemplate validateTemplatePath
  rw [hcache]
  by_cases h1 : strContains name "..".data
  · simp [h1, isSecurityErr]
  · by_cases h2 : name.head? = some '/' ∨ name.head? = some '\\'
    · simp [h1, h2, isSecurityErr]
    · by_cases h3 : 3 ≤ byteLen name ∧ name.get? 1 = some ':'
      · have h3b : name[1]? = some ':' := by simpa using h3.2
        simp [h1, h2, h3.1, h3b, isSecurityErr]
      · exfalso
        rcases hbad with hb | hb | hb | hb
        · exact h1 hb
        · exact h2 (Or.inl hb)
        · exact h2 (Or.inr hb)
        · exact h3 hb

/-- C2 witness: the amended theorem applied to the traversal name `..`. -/
theorem c2_path_validation_security_witness :
    isSecurityErr (loadTemplate engEmpty fsEmpty "..".data) = true ∧
    loadTemplate engEmpty fsEmpty "..".data = loadTemplate engEmpty fsC2 "..".data :=
  c2_path_validation_security engEmpty "..".data fsEmpty fsC2 (by decide)
    (Or.inl (by decide))

/-! ## C6 -/

/-- The compiled form of `\x7b\x7bfor x in arr\x7d\x7d\x7b\x7bx\x7d\x7d\x7b\x7b/for\x7d\x7d`. -/
def c6Template : Str :=
  "\x7b\x7bfor x in arr\x7d\x7d\x7b\x7bx\x7d\x7d\x7b\x7b/for\x7d\x7d".data

def c6Ctx : Ctx :=
  [(("arr".data : Str), TemplateValue.arr [TemplateValue.num 1, TemplateValue.num 2])]

/-- C6: the claim — the executor runs the instructions between `StartLoop`
and `EndLoop` once per array element with the item bound, `EndLoop` jumping
back — contradicts the code: `BytecodeExecutor::execute` treats `StartLoop`,
`EndLoop` and `Jump` as no-ops ("Simplified loop handling"), so the body runs
exactly once with the item variable unbound and the output for a two-element
array is empty rather than `12`.  This theorem evaluates the compiler and
executor at that input. -/
theorem c6_bytecode_loop_not_iterated :
    compile c6Template =
      some (Except.ok [Instr.startLoop "x".data ["arr".data],
        Instr.outputVariable ["x".data], Instr.endLoop 0]) ∧
    (do
      let instrs ← compile c6Template
      execute instrs c6Ctx : M Str) = some (Except.ok []) ∧
    "12".data ≠ ([] : Str) := by
  refine ⟨by decide, by decide, by decide⟩

/-! ## C7 -/

def c7Ctx : Ctx := [(("name".data : Str), TemplateValue.str "Bob".data)]

/-- C7 counterexample: the claim says a substitution with an unknown filter
degrades to the empty string, but `apply_single_filter`'s fallback branch
returns the input unchanged, so `\x7b\x7bname|bogus\x7d\x7d` renders the
value `Bob`, not the empty string. -/
theorem c7_unknown_filter_returns_value :
    mFst (renderString 20 engEmpty fsEmpty "\x7b\x7bname|bogus\x7d\x7d".data c7Ctx) =
      some (Except.ok "Bob".data) ∧
    "Bob".data ≠ ([] : Str) := by
  refine ⟨by decide, by decide⟩

/-- The built-in filter names of `apply_single_filter` (engine.rs). -/
def isBuiltinFilterName (s : Str) : Bool :=
  s == "upper".data || s == "lower".data || s == "capitalize".data ||
  s == "truncate".data || s == "currency".data || s == "date".data ||
  s == "strip".data || s == "add".data || s == "multiply".data ||
  s == "markdown".data || s == "highlight".data || s == "slugify".data ||
  s == "divide".data || s == "percentage".data || s == "round".data

/-- C7 (amended): a filter whose name is neither built in nor registered
acts as the identity — the substitution value passes through unchanged (and
no error or panic is raised). -/
theorem c7_unknown_filter_identity (customs : List (Str × FilterFn))
    (value fexpr : Str)
    (hNotBuiltin : isBuiltinFilterName ((splitChar fexpr ':').headD []) = false)
    (hNotCustom : alGet? customs ((splitChar fexpr ':').headD []) = none) :
    applySingleFilter customs value fexpr = some value := by
  unfold applySingleFilter
  simp only [isBuiltinFilterName, Bool.or_eq_false_iff] at hNotBuiltin
  obtain ⟨⟨⟨⟨⟨⟨⟨⟨⟨⟨⟨⟨⟨⟨h1, h2⟩, h3⟩, h4⟩, h5⟩, h6⟩, h7⟩, h8⟩, h9⟩, h10⟩,
    h11⟩, h12⟩, h13⟩, h14⟩, h15⟩ := hNotBuiltin
  simp only [h1, h2, h3, h4, h5, h6, h7, h8, h9, h10, h11, h12, h13, h14, h15,
    if_false, alGet?] at *
  rw [show (customs.find? (fun p => p.1 == (splitChar fexpr ':').headD [])) =
    none from by
      cases hfind : customs.find? (fun p => p.1 == (splitChar fexpr ':').headD []) with
      | none => rfl
      | some v => rw [hfind] at hNotCustom; simp at hNotCustom]
  rfl

/-- C7 witness: the amended theorem at the unregistered filter `bogus`. -/
theorem c7_unknown_filter_identity_witness :
    applySingleFilter [] "Bob".data "bogus".data = some "Bob".data :=
  c7_unknown_filter_identity [] "Bob".data "bogus".data (by decide) rfl

/-! ## C9 -/

/-- C9: the claim — `truncate:N` is total and char-based — contradicts the
code: the source compares and slices by UTF-8 bytes
(`value.len()`, `&value[..limit]`), so on the one-character two-byte string
`é` with `N = 1` it panics (modelled as `none`) instead of returning the
string unchanged, which is what the claim requires since the character
length 1 is not greater than `N`. -/
theorem c9_truncate_byte_slicing_panics :
    applySingleFilter [] "é".data "truncate:1".data = none ∧
    ("é".data.length = 1 ∧ byteLen "é".data = 2) ∧
    applySingleFilter [] "hello".data "truncate:2".data = some "he...".data := by
  refine ⟨by decide, ⟨by decide, by decide⟩, by decide⟩

/-! ## C3 and C10 -/

instance : LawfulMonad M := by
  apply LawfulMonad.mk'
  · intro α x
    cases x with
    | none => rfl
    | some r => cases r <;> rfl
  · intro α β x f
    rfl
  · intro α β γ x f g
    cases x with
    | none => rfl
    | some r => cases r <;> rfl
  · intro α β x y
    rfl
  · intro α β x y
    cases x with
    | none => rfl
    | some r =>
      cases r with
      | error err => rfl
      | ok a =>
        cases y with
        | none => rfl
        | some s => cases s <;> rfl
  · intro α β x y
    cases x with
    | none => rfl
    | some r =>
      cases r with
      | error err => rfl
      | ok a =>
        cases y with
        | none => rfl
        | some s => cases s <;> rfl
  · intro α β f x
    rfl
  · intro α β f x
    rfl

theorem joinHandles_map (f : α → M β) (l : List α) :
    joinHandles (l.map f) = l.mapM f := by
  rw [← List.mapM'_eq_mapM]
  induction l with
  | nil => rfl
  | cons a t ih => simp [joinHandles, List.mapM'_cons, ih]

/-- C3 (amended): `render_parallel` returns, in input order, exactly the
results of rendering each name with a brand-new engine constructed from the
calling engine's template directory (`TemplateEngine::new(&template_dir)` in
each worker) — not the results of sequential `render` calls on the calling
engine itself. -/
theorem c3_parallel_renders_with_fresh_engines (fuel : Nat) (e : Engine)
    (fs : Fs) (templateNames : List Str) (ctx : Ctx) :
    renderParallel fuel e fs templateNames ctx =
      templateNames.mapM (fun name =>
        mFst (render fuel (engineNew e.templateDir) fs name ctx)) := by
  unfold renderParallel
  exact joinHandles_map _ templateNames

/-- The directory view for the C3 counterexample: one template `t` whose
body applies the filter `shout`. -/
def fsShout : Fs :=
  { read := fun n =>
      if n == "t".data then some "\x7b\x7bname|shout\x7d\x7d".data else none,
    dirCanon := some "/d".data, resolveJoin := fun _ => none,
    insideDir := fun _ => true }

/-- An engine that has registered the custom filter `shout`. -/
def engShout : Engine :=
  { engineNew "tpl".data with
    customFilters := [("shout".data, fun v _ => Except.ok (v ++ "!".data))] }

def ctxShout : Ctx := [(("name".data : Str), TemplateValue.str "hi".data)]

/-- C3 counterexample: on an engine with a registered custom filter,
sequential `render` on that engine applies the filter (`hi!`) while
`render_parallel` renders with fresh worker engines that do not know the
filter (`hi`), so the claimed element-wise equality with sequential
rendering on the same engine fails. -/
theorem c3_parallel_differs_from_sequential :
    renderSeq 20 engShout fsShout ["t".data] ctxShout =
      some (Except.ok ["hi!".data]) ∧
    renderParallel 20 engShout fsShout ["t".data] ctxShout =
      some (Except.ok ["hi".data]) ∧
    (["hi!".data] : List Str) ≠ ["hi".data] := by
  refine ⟨by decide, by decide, by decide⟩

/-- C10: every worker of `render_parallel` and `compile_templates_parallel`
builds a brand-new engine from the template directory alone, so two engines
with the same template directory — however much their registries, caches,
macros, translations or locale differ — produce identical parallel results. -/
theorem c10_parallel_independent_of_engine_state (fuel : Nat) (e1 e2 : Engine)
    (fs : Fs) (templateNames : List Str) (ctx : Ctx)
    (hdir : e1.templateDir = e2.templateDir) :
    renderParallel fuel e1 fs templateNames ctx =
      renderParallel fuel e2 fs templateNames ctx ∧
    compileTemplatesParallel e1 fs templateNames =
      compileTemplatesParallel e2 fs templateNames := by
  unfold renderParallel compileTemplatesParallel
  rw [hdir]
  exact ⟨rfl, rfl⟩

/-- An engine over the same directory as `engShout` but with empty
registries and caches. -/
def engPlain : Engine := engineNew "tpl".data

/-- C10 witness: the theorem applied to `engShout` and `engPlain`, which
differ in registered custom filters but share the template directory. -/
theorem c10_parallel_independent_witness :
    renderParallel 20 engShout fsShout ["t".data] ctxShout =
      renderParallel 20 engPlain fsShout ["t".data] ctxShout ∧
    compileTemplatesParallel engShout fsShout ["t".data] =
      compileTemplatesParallel engPlain fsShout ["t".data] :=
  c10_parallel_independent_of_engine_state 20 engShout engPlain fsShout
    ["t".data] ctxShout rfl

/-! ## C8 -/

theorem mPure_bind (a : α) (k : α → M β) : (pure a : M α) >>= k = k a := rfl

/-- A bind whose continuation returns every successful value unchanged is
the identity. -/
theorem mBind_eq_self (x : M α) (k : α → M α)
    (h : ∀ a, x = some (Except.ok a) → k a = some (Except.ok a)) :
    x >>= k = x := by
  cases x with
  | none => rfl
  | some r =>
    cases r with
    | error err => rfl
    | ok a => exact h a rfl

theorem strStarts_append_self (A B : Str) : strStarts (A ++ B) A = true := by
  induction A with
  | nil => simp [strStarts]
  | cons c rest ih => simp [strStarts, ih]

/-- The text between the braces of a pluralization directive:
`VAR "SINGULAR" "PLURAL"`. -/
def pluralMid (v s p : Str) : Str :=
  v ++ " \"".data ++ s ++ "\" \"".data ++ p ++ "\"".data

/-- The template `\x7b\x7bplural VAR "SINGULAR" "PLURAL"\x7d\x7d`. -/
def pluralTmpl (v s p : Str) : Str :=
  "\x7b\x7bplural ".data ++ pluralMid v s p ++ "\x7d\x7d".data

/-- The number read at VAR: the context value when it is a Number, else 0
(missing or non-Number). -/
def pluralCount (ctx : Ctx) (v : Str) : Int :=
  match ctxGet? ctx v with
  | some (.num n) => n
  | some _ => 0
  | none => 0

/-- C8: rendering `\x7b\x7bplural VAR "SINGULAR" "PLURAL"\x7d\x7d` reads the
Number at VAR (defaulting to 0 when VAR is missing or bound to a non-Number)
and substitutes SINGULAR exactly when that number equals 1, PLURAL otherwise.
The hypotheses pin the textual parse: the closing braces are the ones ending
the directive, the directive splits into the three whitespace-separated
tokens, quote-stripping recovers the bare words, and the chosen word does
not itself restart a plural directive. -/
theorem c8_pluralization_reads_number (f : Nat) (v s p : Str) (ctx : Ctx)
    (hClose : strFind? (pluralTmpl v s p) "\x7d\x7d".data =
      some (9 + (pluralMid v s p).length))
    (hSplit : splitWs (pluralMid v s p) =
      [v, '"' :: (s ++ ['"']), '"' :: (p ++ ['"'])])
    (hTrimS : trimMatchesChar (trimMatchesChar ('"' :: (s ++ ['"'])) '"') '\'' = s)
    (hTrimP : trimMatchesChar (trimMatchesChar ('"' :: (p ++ ['"'])) '"') '\'' = p)
    (hNoS : strFind? s "\x7b\x7bplural ".data = none)
    (hNoP : strFind? p "\x7b\x7bplural ".data = none) :
    processPluralization (f + 2) (pluralTmpl v s p) ctx =
      some (Except.ok (if pluralCount ctx v == 1 then s else p)) := by
  have h0 : strFind? (pluralTmpl v s p) "\x7b\x7bplural ".data = some 0 := by
    apply strFind?_of_starts
    unfold pluralTmpl
    rw [List.append_assoc]
    exact strStarts_append_self _ _
  have hmid : strSlice (pluralTmpl v s p) (0 + 9) (0 + (9 + (pluralMid v s p).length)) =
      pluralMid v s p := by
    unfold pluralTmpl
    rw [List.append_assoc]
    have h9 : ("\x7b\x7bplural ".data : Str).length = 9 := by decide
    have hbase := strSlice_mid ("\x7b\x7bplural ".data) (pluralMid v s p) ("\x7d\x7d".data)
    rw [h9] at hbase
    simpa using hbase
  have hall : replaceRange (pluralTmpl v s p) 0 (9 + (pluralMid v s p).length + 2)
      = fun r => r := by
    funext r
    have hlen : (pluralTmpl v s p).length = 9 + (pluralMid v s p).length + 2 := by
      unfold pluralTmpl
      simp [List.length_append]
      omega
    rw [← hlen, replaceRange_all]
  show processPluralization (f + 1 + 1) (pluralTmpl v s p) ctx = _
  unfold processPluralization
  rw [h0]
  simp only [List.drop_zero]
  rw [hClose]
  simp only [hmid, hSplit]
  rw [hTrimS, hTrimP]
  have hcount : (match ctxGet? ctx v with
      | some (TemplateValue.num n) => n
      | some _ => 0
      | none => 0) = pluralCount ctx v := rfl
  rw [hcount]
  simp only [Nat.zero_add, hall]
  by_cases hc : (pluralCount ctx v == 1) = true
  · rw [if_pos hc]
    unfold processPluralization
    rw [hNoS]
    rfl
  · rw [if_neg hc]
    unfold processPluralization
    rw [hNoP]
    rfl

/-- C8 witness: the theorem at `\x7b\x7bplural count "item" "items"\x7d\x7d`
with `count = 1`. -/
theorem c8_pluralization_reads_number_witness :
    processPluralization 4 (pluralTmpl "count".data "item".data "items".data)
      [(("count".data : Str), TemplateValue.num 1)] =
      some (Except.ok "item".data) := by
  have h := c8_pluralization_reads_number 2 "count".data "item".data "items".data
    [(("count".data : Str), TemplateValue.num 1)]
    (by decide) (by decide) (by decide) (by decide) (by decide) (by decide)
  simpa using h

/-! ## C5 -/

/-- The template `\x7b\x7bfor X in A\x7d\x7dB\x7b\x7b/for\x7d\x7d`. -/
def forTmpl (x a B : Str) : Str :=
  "\x7b\x7bfor ".data ++ x ++ " in ".data ++ a ++ "\x7d\x7d".data ++ B ++
    "\x7b\x7b/for\x7d\x7d".data

/-- The loop-definition text between `\x7b\x7bfor ` and `\x7d\x7d`. -/
def forMid (x a : Str) : Str := x ++ " in ".data ++ a

theorem forTmpl_head (x a B : Str) :
    strFind? (forTmpl x a B) "\x7b\x7bfor ".data = some 0 := by
  apply strFind?_of_starts
  have hs : forTmpl x a B = "\x7b\x7bfor ".data ++
      (x ++ " in ".data ++ a ++ "\x7d\x7d".data ++ B ++ "\x7b\x7b/for\x7d\x7d".data) := by
    simp [forTmpl]
  rw [hs]
  exact strStarts_append_self _ _

theorem forTmpl_mid_slice (x a B : Str) :
    strSlice (forTmpl x a B) 6 (6 + (forMid x a).length) = forMid x a := by
  have hs : forTmpl x a B = "\x7b\x7bfor ".data ++ (forMid x a ++
      ("\x7d\x7d".data ++ (B ++ "\x7b\x7b/for\x7d\x7d".data))) := by
    simp [forTmpl, forMid]
  rw [hs]
  have h6 : ("\x7b\x7bfor ".data : Str).length = 6 := by decide
  have hbase := strSlice_mid "\x7b\x7bfor ".data (forMid x a)
    ("\x7d\x7d".data ++ (B ++ "\x7b\x7b/for\x7d\x7d".data))
  rw [h6] at hbase
  exact hbase

theorem forTmpl_drop_block (x a B : Str) :
    (forTmpl x a B).drop (6 + (forMid x a).length + 2) =
      B ++ "\x7b\x7b/for\x7d\x7d".data := by
  have hs : forTmpl x a B =
      ("\x7b\x7bfor ".data ++ forMid x a ++ "\x7d\x7d".data) ++
        (B ++ "\x7b\x7b/for\x7d\x7d".data) := by
    simp [forTmpl, forMid]
  have hlen : ("\x7b\x7bfor ".data ++ forMid x a ++ "\x7d\x7d".data : Str).length =
      6 + (forMid x a).length + 2 := by
    simp [List.length_append]
    omega
  rw [hs, ← hlen, drop_app]

theorem forTmpl_block_slice (x a B : Str) :
    strSlice (forTmpl x a B) (6 + (forMid x a).length + 2)
      (6 + (forMid x a).length + 2 + B.length) = B := by
  have hs : forTmpl x a B =
      ("\x7b\x7bfor ".data ++ forMid x a ++ "\x7d\x7d".data) ++
        (B ++ "\x7b\x7b/for\x7d\x7d".data) := by
    simp [forTmpl, forMid]
  have hlen : ("\x7b\x7bfor ".data ++ forMid x a ++ "\x7d\x7d".data : Str).length =
      6 + (forMid x a).length + 2 := by
    simp [List.length_append]
    omega
  rw [hs, ← hlen, strSlice_mid]

theorem forTmpl_length (x a B : Str) :
    (forTmpl x a B).length = 6 + (forMid x a).length + 2 + B.length + 8 := by
  simp [forTmpl, forMid, List.length_append]
  omega

/-- C5 (amended): for a loop directive `\x7b\x7bfor X in A\x7d\x7dB\x7b\x7b/for\x7d\x7d`,
the array name A is looked up as a literal top-level key of the context (no
dotted-path traversal).  When it is bound to an Array, the result is the
concatenation over the elements, in order, of re-running the macro-call,
loop, conditional and variable stages on B in a child context binding X to
the element (`renderLoopItems`); when it is missing or non-Array, a name
containing both parentheses raises a Template error and anything else
produces the empty string.  The hypotheses pin the textual parse of the
single directive and require the loop's replacement not to spawn a new
`\x7b\x7bfor ` occurrence. -/
theorem c5_loop_literal_lookup (f : Nat) (e : Engine) (fs : Fs) (x a B : Str)
    (ctx : Ctx)
    (hClose : strFind? (forTmpl x a B) "\x7d\x7d".data =
      some (6 + (forMid x a).length))
    (hTrimMid : strTrim (forMid x a) = forMid x a)
    (hSplit : splitSub (forMid x a) " in ".data = [x, a])
    (hTrimX : strTrim x = x) (hTrimA : strTrim a = a)
    (hMatch : findMatchingForEnd ((forTmpl x a B).length + 1)
      (B ++ "\x7b\x7b/for\x7d\x7d".data) 0 1 = pure B.length)
    (hAfter : ∀ r : Str, mFst (renderLoop (f + 1) e fs x a B ctx) =
      some (Except.ok r) → strFind? r "\x7b\x7bfor ".data = none) :
    processLoops (f + 2) e fs (forTmpl x a B) ctx =
      match ctxGet? ctx a with
      | some (TemplateValue.arr items) => renderLoopItems f e fs x B ctx items []
      | _ =>
        if strContainsChar a '(' && strContainsChar a ')' then
          mThrow (.template ("Function '".data ++ a ++ "' is not supported".data))
        else pure ([], e) := by
  have hMain : processLoops (f + 2) e fs (forTmpl x a B) ctx =
      renderLoop (f + 1) e fs x a B ctx := by
    show processLoops (f + 1 + 1) e fs (forTmpl x a B) ctx = _
    unfold processLoops
    rw [forTmpl_head]
    simp only [List.drop_zero]
    rw [hClose]
    simp only [Nat.zero_add]
    rw [forTmpl_mid_slice, hTrimMid, hSplit]
    dsimp only
    rw [hTrimX, hTrimA, forTmpl_drop_block, hMatch, mPure_bind,
      forTmpl_block_slice]
    have hidx : 6 + (forMid x a).length + 2 + B.length + 8 =
        (forTmpl x a B).length := (forTmpl_length x a B).symm
    show (renderLoop (f + 1) e fs x a B ctx >>= fun p =>
      processLoops (f + 1) p.2 fs
        (replaceRange (forTmpl x a B) 0
          (6 + (forMid x a).length + 2 + B.length + 8) p.1) ctx) =
      renderLoop (f + 1) e fs x a B ctx
    apply mBind_eq_self
    intro p hp
    rw [hidx, replaceRange_all]
    have hFindNone : strFind? p.1 "\x7b\x7bfor ".data = none := by
      apply hAfter
      rw [hp]
      rfl
    unfold processLoops
    rw [hFindNone]
    rfl
  rw [hMain]
  rfl

/-- The context of the C5 counterexample and witness. -/
def c5Ctx : Ctx :=
  [(("user".data : Str),
    TemplateValue.obj [("items".data,
      TemplateValue.arr [TemplateValue.str "a".data])]),
   (("items".data : Str),
    TemplateValue.arr [TemplateValue.num 1, TemplateValue.num 2])]

/-- C5 counterexample: the claim resolves the array by dotted path, but
`render_loop` looks the name up literally (`context.variables.get`), so
`\x7b\x7bfor x in user.items\x7d\x7dX\x7b\x7b/for\x7d\x7d` over a context
where `user.items` resolves by dotted path to a one-element array renders
the empty string instead of one copy of the body. -/
theorem c5_dotted_path_not_resolved :
    mFst (processLoops 10 engEmpty fsEmpty
      (forTmpl "x".data "user.items".data "X".data) c5Ctx) =
      some (Except.ok []) ∧
    (resolveVariableFromContext "user.items".data c5Ctx matches
      TemplateValue.arr _) = true ∧
    "X".data ≠ ([] : Str) := by
  refine ⟨by decide, by decide, by decide⟩

/-- C5 witness: the amended theorem at a literal top-level array name,
yielding one body rendering per element. -/
theorem c5_loop_literal_lookup_witness :
    processLoops 10 engEmpty fsEmpty
      (forTmpl "x".data "items".data "A".data) c5Ctx =
      match ctxGet? c5Ctx "items".data with
      | some (TemplateValue.arr items) =>
        renderLoopItems 8 engEmpty fsEmpty "x".data "A".data c5Ctx items []
      | _ =>
        if strContainsChar "items".data '(' && strContainsChar "items".data ')' then
          mThrow (.template ("Function '".data ++ "items".data ++
            "' is not supported".data))
        else pure ([], engEmpty) := by
  apply c5_loop_literal_lookup 8 engEmpty fsEmpty "x".data "items".data "A".data c5Ctx
  · decide
  · decide
  · decide
  · decide
  · decide
  · decide
  · intro r h
    rw [show mFst (renderLoop (8 + 1) engEmpty fsEmpty "x".data "items".data
      "A".data c5Ctx) = some (Except.ok "AA".data) from by decide] at h
    injection h with h1
    injection h1 with h2
    rw [← h2]
    decide

/-! ## C4 -/

theorem strSlice_shift (s : Str) (D i j : Nat) :
    strSlice s (D + i) (D + j) = strSlice (s.drop D) i j := by
  induction D generalizing s with
  | zero => simp
  | succ d ih =>
    cases s with
    | nil => simp [strSlice]
    | cons c t =>
      have e1 : d + 1 + i = (d + i) + 1 := by omega
      have e2 : d + 1 + j = (d + j) + 1 := by omega
      rw [e1, e2]
      have hL : strSlice (c :: t) ((d + i) + 1) ((d + j) + 1) =
          strSlice t (d + i) (d + j) := by
        simp [strSlice]
      rw [hL, ih]
      rfl

theorem strSlice_take (s : Str) (D j : Nat) :
    strSlice s D (D + j) = (s.drop D).take j := by
  have h := strSlice_shift s D 0 j
  rw [Nat.add_zero] at h
  rw [h]
  simp [strSlice]

theorem drop_add_split (s : Str) (D k : Nat) :
    s.drop (D + k) = (s.drop D).drop k := by
  rw [List.drop_drop, Nat.add_comm]

/-- One block site: `\x7b\x7bblock NAME\x7d\x7dDEFAULT\x7b\x7b/block\x7d\x7d`. -/
def blockSite (n d : Str) : Str :=
  "\x7b\x7bblock ".data ++ n ++ "\x7d\x7d".data ++ d ++ "\x7b\x7b/block\x7d\x7d".data

/-- What replaces a block site: the child's content with every
`\x7b\x7bsuper\x7d\x7d` expanded to the (trimmed) parent default when the
child overrides the block, otherwise the default itself. -/
def blockRepl (child : List (Str × LayoutBlock)) (n d : Str) : Str :=
  match alGet? child n with
  | some childBlock => processSuperDirective childBlock.content (strTrim d)
  | none => strTrim d

theorem blockSite_length (n d : Str) :
    (blockSite n d).length = 20 + n.length + d.length := by
  simp [blockSite, List.length_append]
  omega

theorem blockSite_slice_name (n d rest : Str) :
    strSlice (blockSite n d ++ rest) 8 (8 + n.length) = n := by
  have hs : blockSite n d ++ rest = "\x7b\x7bblock ".data ++
      (n ++ ("\x7d\x7d".data ++ (d ++ ("\x7b\x7b/block\x7d\x7d".data ++ rest)))) := by
    simp [blockSite]
  rw [hs]
  have h8 : ("\x7b\x7bblock ".data : Str).length = 8 := by decide
  have hbase := strSlice_mid "\x7b\x7bblock ".data n
    ("\x7d\x7d".data ++ (d ++ ("\x7b\x7b/block\x7d\x7d".data ++ rest)))
  rw [h8] at hbase
  exact hbase

theorem blockSite_drop_content (n d rest : Str) :
    (blockSite n d ++ rest).drop (8 + n.length + 2) =
      d ++ ("\x7b\x7b/block\x7d\x7d".data ++ rest) := by
  have hs : blockSite n d ++ rest =
      ("\x7b\x7bblock ".data ++ n ++ "\x7d\x7d".data) ++
        (d ++ ("\x7b\x7b/block\x7d\x7d".data ++ rest)) := by
    simp [blockSite]
  have hlen : ("\x7b\x7bblock ".data ++ n ++ "\x7d\x7d".data : Str).length =
      8 + n.length + 2 := by
    simp [List.length_append]
    omega
  rw [hs, ← hlen, drop_app]

/-- `mergeCollectAux` takes one step over a well-formed block site.  The
hypotheses pin the parse of the site that starts after `seg`: the find
results, the whitespace-free name, the matching-end result, and that the
specifically-named closing form does not match (the site uses the plain
`\x7b\x7b/block\x7d\x7d`). -/
theorem mergeCollect_step (f : Nat) (base : Str)
    (child : List (Str × LayoutBlock)) (pos : Nat) (seg n d rest : Str)
    (acc : List (Nat × Nat × Str))
    (hdrop : base.drop pos = seg ++ (blockSite n d ++ rest))
    (hFind : strFind? (seg ++ (blockSite n d ++ rest)) "\x7b\x7bblock ".data =
      some seg.length)
    (hClose : strFind? (blockSite n d ++ rest) "\x7d\x7d".data =
      some (8 + n.length))
    (hWs : splitWs n = [n])
    (hMatch : findMatchingBlockEnd (base.length + 1)
      (d ++ ("\x7b\x7b/block\x7d\x7d".data ++ rest)) n 0 1 = pure d.length)
    (hNoSpec : strStarts ("\x7b\x7b/block\x7d\x7d".data ++ rest)
      ("\x7b\x7b/block ".data ++ n ++ "\x7d\x7d".data) = false) :
    mergeCollectAux (f + 1) base child pos acc =
      mergeCollectAux f base child (pos + seg.length + (8 + n.length) + 2 + d.length + 10)
        ((pos + seg.length, pos + seg.length + (8 + n.length) + 2 + d.length + 10,
          blockRepl child n d) :: acc) := by
  have hdropA : base.drop (pos + seg.length) = blockSite n d ++ rest := by
    rw [drop_add_split, hdrop, drop_app]
  have hname : strSlice base (pos + seg.length + 8)
      (pos + seg.length + (8 + n.length)) = n := by
    rw [strSlice_shift, hdropA, blockSite_slice_name]
  have hdropC : base.drop (pos + seg.length + (8 + n.length) + 2) =
      d ++ ("\x7b\x7b/block\x7d\x7d".data ++ rest) := by
    have e : pos + seg.length + (8 + n.length) + 2 =
        (pos + seg.length) + (8 + n.length + 2) := by omega
    rw [e, drop_add_split, hdropA, blockSite_drop_content]
  have hdefault : strSlice base (pos + seg.length + (8 + n.length) + 2)
      (pos + seg.length + (8 + n.length) + 2 + d.length) = d := by
    rw [strSlice_take, hdropC, take_app]
  have hdropE : base.drop (pos + seg.length + (8 + n.length) + 2 + d.length) =
      "\x7b\x7b/block\x7d\x7d".data ++ rest := by
    have e : pos + seg.length + (8 + n.length) + 2 + d.length =
        (pos + seg.length + (8 + n.length) + 2) + d.length := by omega
    rw [e, drop_add_split, hdropC, drop_app]
  have hPlain : strStarts ("\x7b\x7b/block\x7d\x7d".data ++ rest)
      "\x7b\x7b/block\x7d\x7d".data = true := strStarts_append_self _ _
  conv_lhs => unfold mergeCollectAux
  rw [hdrop, hFind]
  try dsimp only
  rw [hdropA, hClose]
  try dsimp only
  rw [hname, hWs]
  try dsimp only [List.head?]
  rw [hdropC, hMatch, mPure_bind]
  try dsimp only
  rw [hdefault, hdropE, hNoSpec, hPlain]
  simp only [Bool.false_eq_true, if_false, if_true, mPure_bind]
  rfl

/-- `mergeCollectAux` stops when no further `\x7b\x7bblock ` occurs. -/
theorem mergeCollect_end (f : Nat) (base : Str)
    (child : List (Str × LayoutBlock)) (pos : Nat) (acc : List (Nat × Nat × Str))
    (hNone : strFind? (base.drop pos) "\x7b\x7bblock ".data = none) :
    mergeCollectAux (f + 1) base child pos acc = pure acc := by
  unfold mergeCollectAux
  rw [hNone]

/-- A resolved parent body with two block sites:
`seg0 ⟨site n1 d1⟩ seg1 ⟨site n2 d2⟩ seg2`. -/
def c4Base (seg0 n1 d1 seg1 n2 d2 seg2 : Str) : Str :=
  seg0 ++ (blockSite n1 d1 ++ (seg1 ++ (blockSite n2 d2 ++ seg2)))

/-- C4: in inheritance resolution, `merge_blocks` replaces each block site
of the resolved parent independently: a site whose name the child overrides
gets the child's content with every literal `\x7b\x7bsuper\x7d\x7d` token
expanded to the parent-side default (trimmed) before insertion, and a site
with no child override keeps the parent's default content.  Stated for a
base with two sites and arbitrary child block table; the hypotheses pin the
textual parse of the two sites. -/
theorem c4_merge_blocks_replaces_each_site
    (seg0 n1 d1 seg1 n2 d2 seg2 : Str) (child : List (Str × LayoutBlock))
    (hFind1 : strFind? (seg0 ++ (blockSite n1 d1 ++ (seg1 ++ (blockSite n2 d2 ++ seg2))))
      "\x7b\x7bblock ".data = some seg0.length)
    (hClose1 : strFind? (blockSite n1 d1 ++ (seg1 ++ (blockSite n2 d2 ++ seg2)))
      "\x7d\x7d".data = some (8 + n1.length))
    (hWs1 : splitWs n1 = [n1])
    (hMatch1 : findMatchingBlockEnd ((c4Base seg0 n1 d1 seg1 n2 d2 seg2).length + 1)
      (d1 ++ ("\x7b\x7b/block\x7d\x7d".data ++ (seg1 ++ (blockSite n2 d2 ++ seg2))))
      n1 0 1 = pure d1.length)
    (hNoSpec1 : strStarts ("\x7b\x7b/block\x7d\x7d".data ++ (seg1 ++ (blockSite n2 d2 ++ seg2)))
      ("\x7b\x7b/block ".data ++ n1 ++ "\x7d\x7d".data) = false)
    (hFind2 : strFind? (seg1 ++ (blockSite n2 d2 ++ seg2)) "\x7b\x7bblock ".data =
      some seg1.length)
    (hClose2 : strFind? (blockSite n2 d2 ++ seg2) "\x7d\x7d".data =
      some (8 + n2.length))
    (hWs2 : splitWs n2 = [n2])
    (hMatch2 : findMatchingBlockEnd ((c4Base seg0 n1 d1 seg1 n2 d2 seg2).length + 1)
      (d2 ++ ("\x7b\x7b/block\x7d\x7d".data ++ seg2)) n2 0 1 = pure d2.length)
    (hNoSpec2 : strStarts ("\x7b\x7b/block\x7d\x7d".data ++ seg2)
      ("\x7b\x7b/block ".data ++ n2 ++ "\x7d\x7d".data) = false)
    (hNone : strFind? seg2 "\x7b\x7bblock ".data = none) :
    mergeBlocks (c4Base seg0 n1 d1 seg1 n2 d2 seg2) child =
      some (Except.ok (seg0 ++ (blockRepl child n1 d1 ++
        (seg1 ++ (blockRepl child n2 d2 ++ seg2))))) := by
  set base := c4Base seg0 n1 d1 seg1 n2 d2 seg2 with hbase
  have hlenbase : base.length = seg0.length + (20 + n1.length + d1.length) +
      seg1.length + (20 + n2.length + d2.length) + seg2.length := by
    rw [hbase]
    simp only [c4Base, List.length_append, blockSite_length]
    omega
  obtain ⟨m, hm⟩ : ∃ m, base.length + 1 = m + 1 + 1 + 1 := by
    refine ⟨base.length - 2, ?_⟩
    omega
  have hdrop1 : base.drop 0 = seg0 ++ (blockSite n1 d1 ++ (seg1 ++ (blockSite n2 d2 ++ seg2))) := by
    rw [hbase]
    simp [c4Base]
  have hstep1 := mergeCollect_step (m + 1 + 1) base child 0 seg0 n1 d1
    (seg1 ++ (blockSite n2 d2 ++ seg2)) [] hdrop1 hFind1 hClose1 hWs1
    (by rw [hbase] at hMatch1 ⊢; exact hMatch1) hNoSpec1
  have hP2 : 0 + seg0.length + (8 + n1.length) + 2 + d1.length + 10 =
      (seg0 ++ blockSite n1 d1).length := by
    simp [List.length_append, blockSite_length]
    omega
  have hdrop2 : base.drop (0 + seg0.length + (8 + n1.length) + 2 + d1.length + 10) =
      seg1 ++ (blockSite n2 d2 ++ seg2) := by
    rw [hP2, hbase]
    have hre : c4Base seg0 n1 d1 seg1 n2 d2 seg2 =
        (seg0 ++ blockSite n1 d1) ++ (seg1 ++ (blockSite n2 d2 ++ seg2)) := by
      simp [c4Base]
    rw [hre, drop_app]
  have hstep2 := mergeCollect_step (m + 1) base child
    (0 + seg0.length + (8 + n1.length) + 2 + d1.length + 10)
    seg1 n2 d2 seg2
    [(0 + seg0.length, 0 + seg0.length + (8 + n1.length) + 2 + d1.length + 10,
      blockRepl child n1 d1)]
    hdrop2 hFind2 hClose2 hWs2 hMatch2 hNoSpec2
  have hdrop3 : base.drop (0 + seg0.length + (8 + n1.length) + 2 + d1.length + 10 +
      seg1.length + (8 + n2.length) + 2 + d2.length + 10) = seg2 := by
    have hP3 : 0 + seg0.length + (8 + n1.length) + 2 + d1.length + 10 + seg1.length +
        (8 + n2.length) + 2 + d2.length + 10 =
        ((seg0 ++ blockSite n1 d1) ++ (seg1 ++ blockSite n2 d2)).length := by
      simp [List.length_append, blockSite_length]
      omega
    have hre : base = ((seg0 ++ blockSite n1 d1) ++ (seg1 ++ blockSite n2 d2)) ++ seg2 := by
      rw [hbase]; simp [c4Base]
    rw [hP3, hre, drop_app]
  have hstep3 := mergeCollect_end m base child
    (0 + seg0.length + (8 + n1.length) + 2 + d1.length + 10 + seg1.length +
      (8 + n2.length) + 2 + d2.length + 10)
    [(0 + seg0.length + (8 + n1.length) + 2 + d1.length + 10 + seg1.length,
      0 + seg0.length + (8 + n1.length) + 2 + d1.length + 10 + seg1.length +
        (8 + n2.length) + 2 + d2.length + 10,
      blockRepl child n2 d2),
     (0 + seg0.length, 0 + seg0.length + (8 + n1.length) + 2 + d1.length + 10,
      blockRepl child n1 d1)]
    (by rw [hdrop3]; exact hNone)
  have happly : List.foldl (fun r t => replaceRange r t.1 t.2.1 t.2.2) base
      [(0 + seg0.length + (8 + n1.length) + 2 + d1.length + 10 + seg1.length,
        0 + seg0.length + (8 + n1.length) + 2 + d1.length + 10 + seg1.length +
          (8 + n2.length) + 2 + d2.length + 10,
        blockRepl child n2 d2),
       (0 + seg0.length, 0 + seg0.length + (8 + n1.length) + 2 + d1.length + 10,
        blockRepl child n1 d1)] =
      seg0 ++ (blockRepl child n1 d1 ++ (seg1 ++ (blockRepl child n2 d2 ++ seg2))) := by
    have hstepA : replaceRange base
        (0 + seg0.length + (8 + n1.length) + 2 + d1.length + 10 + seg1.length)
        (0 + seg0.length + (8 + n1.length) + 2 + d1.length + 10 + seg1.length +
          (8 + n2.length) + 2 + d2.length + 10)
        (blockRepl child n2 d2) =
        (seg0 ++ (blockSite n1 d1 ++ seg1)) ++ (blockRepl child n2 d2 ++ seg2) := by
      have hre : base = (seg0 ++ (blockSite n1 d1 ++ seg1)) ++ (blockSite n2 d2 ++ seg2) := by
        rw [hbase]; simp [c4Base]
      have hA : 0 + seg0.length + (8 + n1.length) + 2 + d1.length + 10 + seg1.length =
          (seg0 ++ (blockSite n1 d1 ++ seg1)).length := by
        simp [List.length_append, blockSite_length]
        omega
      rw [hA]
      have hE : (seg0 ++ (blockSite n1 d1 ++ seg1)).length +
          (8 + n2.length) + 2 + d2.length + 10 =
          (seg0 ++ (blockSite n1 d1 ++ seg1)).length + (blockSite n2 d2).length := by
        rw [blockSite_length]
        omega
      rw [hE, hre, replaceRange_mid]
    have hreB : (seg0 ++ (blockSite n1 d1 ++ seg1)) ++ (blockRepl child n2 d2 ++ seg2) =
        seg0 ++ (blockSite n1 d1 ++
          (seg1 ++ (blockRepl child n2 d2 ++ seg2))) := by
      simp
    have hstepB : replaceRange
        (seg0 ++ (blockSite n1 d1 ++ (seg1 ++ (blockRepl child n2 d2 ++ seg2))))
        (0 + seg0.length)
        (0 + seg0.length + (8 + n1.length) + 2 + d1.length + 10)
        (blockRepl child n1 d1) =
        seg0 ++ (blockRepl child n1 d1 ++
          (seg1 ++ (blockRepl child n2 d2 ++ seg2))) := by
      rw [Nat.zero_add]
      have hE1 : seg0.length + (8 + n1.length) + 2 + d1.length + 10 =
          seg0.length + (blockSite n1 d1).length := by
        rw [blockSite_length]
        omega
      rw [hE1, replaceRange_mid]
    simp only [List.foldl_cons, List.foldl_nil]
    try dsimp only
    rw [hstepA, hreB, hstepB]
  unfold mergeBlocks
  rw [hm, hstep1, hstep2, hstep3, mPure_bind, happly]
  rfl

/-- C4 witness: the theorem applied to the parent body
`A \x7b\x7bblock B\x7d\x7dx\x7b\x7b/block\x7d\x7d \x7b\x7bblock C\x7d\x7dy\x7b\x7b/block\x7d\x7d Z`
with a child overriding `B` by `\x7b\x7bsuper\x7d\x7d+q`: the overridden site
expands `super` to the default `x`, the other keeps its default `y`. -/
theorem c4_merge_blocks_witness :
    mergeBlocks (c4Base "A ".data "B".data "x".data " ".data "C".data "y".data
      " Z".data)
      [("B".data, { name := "B".data, content := "\x7b\x7bsuper\x7d\x7d+q".data })] =
      some (Except.ok "A x+q y Z".data) := by
  have h := c4_merge_blocks_replaces_each_site "A ".data "B".data "x".data
    " ".data "C".data "y".data " Z".data
    [("B".data, { name := "B".data, content := "\x7b\x7bsuper\x7d\x7d+q".data })]
    (by decide) (by decide) (by decide) (by decide) (by decide) (by decide)
    (by decide) (by decide) (by decide) (by decide) (by decide)
  rw [h]
  decide

end MysticalRunic
